import Mathlib

set_option maxHeartbeats 1000000

/-!
Verification development for the temporal-spatial aggregation pipeline
(`download_full_sst.py`, `download_full_plancton.py`, `download_full_sharks.py`,
`download_full_swot.py`, `extract_data_sst_nc.py`, `earthaccess_manager.py`).

Dates are modelled as proleptic-Gregorian triples (year, month, day), with
day-stepping arithmetic mirroring Python `datetime.date` plus/minus
`timedelta(days=1)`.  Python's year bounds (MINYEAR/MAXYEAR) are modelled
only where a claim depends on them (the day-of-year filename strategy).
-/

/-- Calendar date, as Python `datetime.date`: a (year, month, day) triple. -/
structure Date where
  year : Int
  month : Nat
  day : Nat
deriving DecidableEq, Repr

/-- Gregorian leap-year rule (Python `calendar.isleap`). -/
def isLeap (y : Int) : Bool :=
  y % 4 == 0 && (y % 100 != 0 || y % 400 == 0)

/-- Number of days in a calendar month. -/
def daysInMonth (y : Int) (m : Nat) : Nat :=
  if m = 2 then (if isLeap y then 29 else 28)
  else if m = 4 ∨ m = 6 ∨ m = 9 ∨ m = 11 then 30
  else 31

/-- Lexicographic order on dates (Python date comparison). -/
def Date.le (a b : Date) : Prop :=
  a.year < b.year ∨ (a.year = b.year ∧
    (a.month < b.month ∨ (a.month = b.month ∧ a.day ≤ b.day)))

/-- Strict lexicographic order on dates. -/
def Date.lt (a b : Date) : Prop :=
  a.year < b.year ∨ (a.year = b.year ∧
    (a.month < b.month ∨ (a.month = b.month ∧ a.day < b.day)))

instance : LE Date := ⟨Date.le⟩

instance : LT Date := ⟨Date.lt⟩

instance instDecDateLe (a b : Date) : Decidable (a ≤ b) :=
  decidable_of_iff (a.year < b.year ∨ (a.year = b.year ∧
    (a.month < b.month ∨ (a.month = b.month ∧ a.day ≤ b.day)))) Iff.rfl

instance instDecDateLt (a b : Date) : Decidable (a < b) :=
  decidable_of_iff (a.year < b.year ∨ (a.year = b.year ∧
    (a.month < b.month ∨ (a.month = b.month ∧ a.day < b.day)))) Iff.rfl

/-- A structurally well-formed calendar date (what Python `date` can hold,
ignoring Python's year bounds). -/
def Date.Valid (d : Date) : Prop :=
  1 ≤ d.month ∧ d.month ≤ 12 ∧ 1 ≤ d.day ∧ d.day ≤ daysInMonth d.year d.month

instance instDecDateValid (d : Date) : Decidable d.Valid := by
  unfold Date.Valid; infer_instance

/-- The next calendar day (`d + timedelta(days=1)`). -/
def succDay (d : Date) : Date :=
  if d.day < daysInMonth d.year d.month then ⟨d.year, d.month, d.day + 1⟩
  else if d.month < 12 then ⟨d.year, d.month + 1, 1⟩
  else ⟨d.year + 1, 1, 1⟩

/-- The previous calendar day (`d - timedelta(days=1)`). -/
def predDay (d : Date) : Date :=
  if 1 < d.day then ⟨d.year, d.month, d.day - 1⟩
  else if 1 < d.month then ⟨d.year, d.month - 1, daysInMonth d.year (d.month - 1)⟩
  else ⟨d.year - 1, 12, 31⟩

/-- `d + timedelta(days=n)` for a possibly negative `n`. -/
def addDays (d : Date) (n : Int) : Date :=
  if 0 ≤ n then succDay^[n.toNat] d else predDay^[(-n).toNat] d

/-- `d.replace(day=1)`. -/
def firstOfMonth (d : Date) : Date := ⟨d.year, d.month, 1⟩

/-- The last day of `d`'s calendar month. -/
def lastOfMonth (d : Date) : Date := ⟨d.year, d.month, daysInMonth d.year d.month⟩

/-- `(cur.replace(day=28) + timedelta(days=4)).replace(day=1)` —
the first day of the month after `d`'s, as computed in `month_windows`. -/
def nextMonthStart (d : Date) : Date :=
  firstOfMonth (succDay (succDay (succDay (succDay ⟨d.year, d.month, 28⟩))))

/-- Python `min` of two dates (first argument preferred on ties). -/
def dmin (a b : Date) : Date := if a ≤ b then a else b

/-- Linear month index `12*year + month`; consecutive months differ by 1. -/
def monthIdx (d : Date) : Int := 12 * d.year + d.month

/-- Loop body of `month_windows` (`download_full_sst.py` lines 87-94,
`download_full_plancton.py` lines 92-99): while `cur <= last`, yield
`(cur, min(next_month_start - 1 day, end))` and step `cur` to the next
month's first day.  `fuel` bounds the iteration count; `monthWindows`
supplies exactly the number of months in the range, which the
termination lemmas show is enough for the loop to run to completion. -/
def monthWindowsGo (theEnd last : Date) : Nat → Date → List (Date × Date)
  | 0, _ => []
  | fuel + 1, cur =>
    if cur ≤ last then
      (cur, dmin (predDay (nextMonthStart cur)) theEnd)
        :: monthWindowsGo theEnd last fuel (nextMonthStart cur)
    else []

/-- `month_windows(start, end)`: calendar-month windows covering the range.
`cur` starts at the first day of `start`'s month and `last` is the first
day of `end`'s month. -/
def monthWindows (start theEnd : Date) : List (Date × Date) :=
  monthWindowsGo theEnd (firstOfMonth theEnd)
    (monthIdx (firstOfMonth theEnd) + 1 - monthIdx (firstOfMonth start)).toNat
    (firstOfMonth start)

/-- Bundle of structural properties of a month-window list `W` covering
`[cur, B]`: starts at `cur`, ends at `B`, windows are day-contiguous, each
window is well-formed and month-aligned, non-final windows end at month
ends, windows stay inside `[cur, B]`, and the windows cover exactly the
dates of `[cur, B]`. -/
def WinSpec (B cur : Date) (W : List (Date × Date)) : Prop :=
  (∃ e, W.head? = some (cur, e)) ∧
  (∃ s, W.getLast? = some (s, B)) ∧
  List.Chain' (fun a b => b.1 = succDay a.2) W ∧
  (∀ w ∈ W, w.1 ≤ w.2 ∧ w.1.Valid ∧ w.2.Valid ∧ w.1.day = 1) ∧
  (∀ w ∈ W.dropLast, w.2 = lastOfMonth w.1) ∧
  (∀ w ∈ W, cur ≤ w.1 ∧ w.2 ≤ B) ∧
  (∀ d : Date, d.Valid → ((∃ w ∈ W, w.1 ≤ d ∧ d ≤ w.2) ↔ (cur ≤ d ∧ d ≤ B)))

/-! ### Grid flattening and hexagonal aggregation
(`export_csv` in `download_full_sst.py` / `download_full_plancton.py`,
`aggregate_h3` in `extract_data_sst_nc.py`, `safe_var` in
`download_full_swot.py`).

Scalar values are rationals; NaN is `none`.  The external H3 library
(`_latlng_to_h3` at the fixed resolution) is an opaque parameter
`cell : latitude -> longitude -> cell id`. -/

/-- One element of a masked numpy array: either masked or a value. -/
inductive MaVal
  | masked
  | val (q : Rat)
deriving DecidableEq, Repr

/-- `np.ma.filled(x, np.nan)` at one element: masked becomes NaN (`none`). -/
def maFilledNaN : MaVal → Option Rat
  | .masked => none
  | .val q => some q

/-- `np.nan_to_num(x, nan=0.0)` at one element (infinities do not arise
over the rationals). -/
def nanToNum (x : Option Rat) : Rat := x.getD 0

/-- Core of `safe_var` (`download_full_swot.py` lines 74-85): fill masked
entries with NaN, then `nan_to_num` maps every NaN to 0.0. -/
def safe_var (arr : List MaVal) : List Rat :=
  arr.map (fun a => nanToNum (maFilledNaN a))

/-- In `process_swot_file` every array is passed through `np.nan_to_num`
before the `np.isfinite` mask is computed, so the mask keeps every entry;
the surviving per-point rows pair latitude, longitude and `ssh_karin`
after `safe_var`. -/
def swot_points (lat lon ssh : List MaVal) : List (Rat × Rat × Rat) :=
  (safe_var lat).zip ((safe_var lon).zip (safe_var ssh))

/-- `np.ma.filled(sst, np.nan)` over a whole 2-D grid (`export_csv`,
`download_full_sst.py` lines 123-124). -/
def sstFilledGrid (g : List (List MaVal)) : List (List (Option Rat)) :=
  g.map (fun row => row.map maFilledNaN)

/-- Meshgrid-and-ravel of `export_csv`: for each latitude row of the grid,
pair each longitude with the grid value (`none` = NaN), row-major. -/
def gridRows (lats lons : List Rat) (g : List (List (Option Rat))) :
    List (Rat × Rat × Option Rat) :=
  (List.zip lats g).flatMap
    (fun lr => (List.zip lons lr.2).map (fun lv => (lr.1, lv.1, lv.2)))

/-- Same meshgrid over the raw masked grid (for relating the two views). -/
def gridRowsMa (lats lons : List Rat) (g : List (List MaVal)) :
    List (Rat × Rat × MaVal) :=
  (List.zip lats g).flatMap
    (fun lr => (List.zip lons lr.2).map (fun lv => (lr.1, lv.1, lv.2)))

/-- `.dropna(subset=["sst"])`: drop rows whose primary value is NaN. -/
def dropnaRows (rows : List (Rat × Rat × Option Rat)) :
    List (Rat × Rat × Option Rat) :=
  rows.filter (fun r => r.2.2.isSome)

/-- The sorted distinct cell ids of a point set (pandas `groupby` visits
group keys in ascending sorted order). -/
def groupKeys (cell : Rat → Rat → Nat) (rows : List (Rat × Rat × Option Rat)) :
    List Nat :=
  ((rows.map (fun r => cell r.1 r.2.1)).dedup).insertionSort (fun a b => a ≤ b)

/-- The primary values of the rows of one cell (only non-NaN rows carry a
value). -/
def cellValues (cell : Rat → Rat → Nat) (rows : List (Rat × Rat × Option Rat))
    (h : Nat) : List Rat :=
  (rows.filter (fun r => r.2.2.isSome && (cell r.1 r.2.1 == h))).filterMap
    (fun r => r.2.2)

/-- Group mean (`pandas .agg("mean")`; groups are nonempty). -/
def listMean (xs : List Rat) : Rat := xs.sum / (xs.length : Rat)

/-- Group minimum (groups are nonempty; 0 is never reached). -/
def listMin : List Rat → Rat
  | [] => 0
  | x :: xs => xs.foldl min x

/-- Group maximum (groups are nonempty; 0 is never reached). -/
def listMax : List Rat → Rat
  | [] => 0
  | x :: xs => xs.foldl max x

/-- Sample variance with `ddof=1`, as pandas `std` squares it: `none` is
the NaN that pandas produces for one-element groups.  `std` is the square
root of this quantity, so `std` is NaN iff this is `none` and `std = 0`
iff this is `some 0`; the claims about std concern exactly
definedness and zero, which transfer across the square root. -/
def sampleVar (xs : List Rat) : Option Rat :=
  if xs.length ≤ 1 then none
  else some (((xs.map (fun x => (x - listMean xs) ^ 2)).sum) / ((xs.length : Rat) - 1))

/-- One aggregated output row of `export_csv` (statistics columns;
constant per-unit metadata columns are independent of the group and
omitted). -/
structure AggRow where
  h3 : Nat
  sst_mean : Rat
  sst_min : Rat
  sst_max : Rat
  sst_std : Option Rat
  n : Nat
deriving DecidableEq, Repr

/-- The statistics row of one cell. -/
def mkAggRow (vs : List Rat) (h : Nat) : AggRow :=
  ⟨h, listMean vs, listMin vs, listMax vs, sampleVar vs, vs.length⟩

/-- Aggregation core of `export_csv` (`download_full_sst.py` lines
195-228, identically `download_full_plancton.py`): ravel the grid, drop
NaN, assign cells, group and compute mean/min/max/std/count.  The same
code with `chlor_a` in place of `sst` is the plancton variant. -/
def export_csv_agg (cell : Rat → Rat → Nat) (lats lons : List Rat)
    (g : List (List (Option Rat))) : List AggRow :=
  (groupKeys cell (dropnaRows (gridRows lats lons g))).map
    (fun h => mkAggRow (cellValues cell (dropnaRows (gridRows lats lons g)) h) h)

/-- One aggregated row of `aggregate_h3` (`extract_data_sst_nc.py` lines
96-126); lat/lon means and anomaly are omitted as no claim concerns them. -/
structure AggRowH3 where
  h3_index : Nat
  sst_mean_celsius : Rat
  sst_std_celsius : Rat
  n_points : Nat
  confidence : String
deriving DecidableEq, Repr

/-- One row of `aggregate_h3`: note `fillna(0.0)` on the std column and
the `n_points`-based confidence flag. -/
def mkAggRowH3 (vs : List Rat) (h : Nat) : AggRowH3 :=
  ⟨h, listMean vs, (sampleVar vs).getD 0, vs.length,
   if 5 < vs.length then "high" else if 1 < vs.length then "medium" else "low"⟩

/-- `aggregate_h3` (`extract_data_sst_nc.py`): group the already-cleaned
point records by cell and aggregate; the std column has NaN replaced by
0.0 (`fillna(0.0)`). -/
def aggregate_h3 (cell : Rat → Rat → Nat) (recs : List (Rat × Rat × Rat)) :
    List AggRowH3 :=
  (((recs.map (fun r => cell r.1 r.2.1)).dedup).insertionSort (fun a b => a ≤ b)).map
    (fun h => mkAggRowH3
      ((recs.filter (fun r => cell r.1 r.2.1 == h)).map (fun r => r.2.2)) h)

/-! ### OBIS shark pipeline (`download_full_sharks.py`): retrying fetch
client, pagination, per-record filtering, hex counting, minimum-count
filter. -/

/-- Module constants of `download_full_sharks.py`. -/
def PAGE_SIZE : Nat := 1000

def MAX_RETRIES : Nat := 3

def RETRY_SLEEP : Rat := 1

def MIN_POINTS_PER_HEX : Nat := 1

def SKIP_IF_EXISTS : Bool := true

/-- Outcome of one `requests.get` attempt: a 200 response carrying a
payload, a non-success status code, or a transport error (exception). -/
inductive Attempt (ρ : Type)
  | ok (resp : ρ)
  | httpErr (code : Nat)
  | netErr

/-- Whether the attempt returned HTTP 200. -/
def Attempt.isOk {ρ : Type} : Attempt ρ → Bool
  | .ok _ => true
  | _ => false

/-- Retry loop of `_req_get` (`download_full_sharks.py` lines 80-93),
indexed by the outcome of each attempt number: returns the first 200
response among attempts `1..MAX_RETRIES` (or `none` after exhausting
them) together with the list of sleeps performed
(`RETRY_SLEEP * attempt` after every failed attempt). -/
def req_get_go {ρ : Type} (outcomes : Nat → Attempt ρ) :
    Nat → Nat → Option ρ × List Rat
  | 0, _ => (none, [])
  | r + 1, attempt =>
    match outcomes attempt with
    | .ok resp => (some resp, [])
    | _ =>
      let rest := req_get_go outcomes r (attempt + 1)
      (rest.1, (RETRY_SLEEP * (attempt : Rat)) :: rest.2)

/-- `_req_get`: up to `MAX_RETRIES` attempts, numbered from 1. -/
def req_get {ρ : Type} (outcomes : Nat → Attempt ρ) : Option ρ × List Rat :=
  req_get_go outcomes MAX_RETRIES 1

/-- An OBIS occurrence record as consumed by
`fetch_one_species_one_day`: the two coordinate fields (absent = `None`). -/
structure ShkRec where
  decimalLatitude : Option Rat
  decimalLongitude : Option Rat
deriving DecidableEq, Repr

/-- An OBIS occurrence record as consumed by `fetch_one_species_period`:
coordinates plus the three possible event-date fields. -/
structure ShkRecP where
  decimalLatitude : Option Rat
  decimalLongitude : Option Rat
  eventDate : Option String
  dateField : Option String
  eventdateLower : Option String
deriving DecidableEq, Repr

/-- One page of the paginated OBIS response: `{results: [...], total: n}`
(`total` absent = `none`, keeping the previous estimate). -/
structure PageResp (ρ : Type) where
  results : List ρ
  total : Option Nat

/-- `counts.get(h, 0) + 1` stored back into the dict: increment in place
if the key exists, else append it with count 1 (Python dicts preserve
insertion order). -/
def bump {κ : Type} [DecidableEq κ] (m : List (κ × Nat)) (h : κ) :
    List (κ × Nat) :=
  if m.any (fun p => decide (p.1 = h)) then
    m.map (fun p => if p.1 = h then (p.1, p.2 + 1) else p)
  else m ++ [(h, 1)]

/-- Dict lookup with default 0 (`counts.get(h, 0)`; first match wins,
matching dict semantics as `bump` keeps keys unique). -/
def lookupCount {κ : Type} [DecidableEq κ] : List (κ × Nat) → κ → Nat
  | [], _ => 0
  | p :: t, h => if p.1 = h then p.2 else lookupCount t h

/-- Per-record body of `fetch_one_species_one_day` (lines 134-147): skip
records with a missing coordinate, skip coordinates outside
[-90, 90] x [-180, 180], otherwise count the record under its cell. -/
def recStep (cell : Rat → Rat → Nat) (acc : List (Nat × Nat)) (r : ShkRec) :
    List (Nat × Nat) :=
  match r.decimalLatitude, r.decimalLongitude with
  | some la, some lo =>
    if -90 ≤ la ∧ la ≤ 90 ∧ -180 ≤ lo ∧ lo ≤ 180 then bump acc (cell la lo)
    else acc
  | _, _ => acc

/-- Whether `recStep` counts record `r` under cell `h`. -/
def shkKeep (cell : Rat → Rat → Nat) (h : Nat) (r : ShkRec) : Bool :=
  match r.decimalLatitude, r.decimalLongitude with
  | some la, some lo =>
    decide (-90 ≤ la) && decide (la ≤ 90) && decide (-180 ≤ lo) &&
      decide (lo ≤ 180) && (cell la lo == h)
  | _, _ => false

/-- Python `a or b` over optional strings: the empty string is falsy. -/
def pyOrStr (a b : Option String) : Option String :=
  match a with
  | some s => if s = "" then b else some s
  | none => b

/-- Per-record body of `fetch_one_species_period` (lines 231-254): skip a
missing coordinate, then a missing/empty event date
(`eventDate`/`date`/`eventdate` chained by `or`), then out-of-range
coordinates; otherwise count under the key (first 10 chars of the event
date, cell). -/
def recStepP (cell : Rat → Rat → Nat) (acc : List ((String × Nat) × Nat))
    (r : ShkRecP) : List ((String × Nat) × Nat) :=
  match r.decimalLatitude, r.decimalLongitude with
  | some la, some lo =>
    match pyOrStr (pyOrStr r.eventDate r.dateField) r.eventdateLower with
    | none => acc
    | some ev =>
      if ev = "" then acc
      else if -90 ≤ la ∧ la ≤ 90 ∧ -180 ≤ lo ∧ lo ≤ 180 then
        bump acc (ev.take 10, cell la lo)
      else acc
  | _, _ => acc

/-- Shared pagination loop of `fetch_one_species_one_day` (lines 114-152)
and `fetch_one_species_period` (lines 211-260), parameterized by the
per-record body: request page at `offset`; a failed request (`none`,
i.e. `_req_get` returned `None`) breaks out returning the accumulated
counts; an empty results list breaks; otherwise fold the records,
advance the offset by `PAGE_SIZE` and stop once the server-reported
total is reached.  The page list holds the successive `_req_get`
outcomes; an exhausted list behaves as a failed request. -/
def obisPaginate {ρ κ : Type} [DecidableEq κ]
    (step : List (κ × Nat) → ρ → List (κ × Nat)) :
    List (Option (PageResp ρ)) → Nat → Option Nat → List (κ × Nat) →
      List (κ × Nat)
  | [], _, _, acc => acc
  | none :: _, _, _, acc => acc
  | some p :: rest, offset, tot, acc =>
    let tot2 := match p.total with | some t => some t | none => tot
    if p.results.isEmpty then acc
    else
      let acc2 := p.results.foldl step acc
      match tot2 with
      | some t =>
        if t ≤ offset + PAGE_SIZE then acc2
        else obisPaginate step rest (offset + PAGE_SIZE) tot2 acc2
      | none => obisPaginate step rest (offset + PAGE_SIZE) tot2 acc2

/-- Post-aggregation minimum-count filter (lines 154-157 and 262-265):
applied only when the threshold exceeds 1 and the dict is nonempty. -/
def minFilter {κ : Type} [DecidableEq κ] (t : Nat) (m : List (κ × Nat)) :
    List (κ × Nat) :=
  if 1 < t ∧ m ≠ [] then m.filter (fun p => t ≤ p.2) else m

/-- `fetch_one_species_one_day`: paginate, count by cell, then apply the
minimum-count filter at the module threshold. -/
def fetch_one_species_one_day (cell : Rat → Rat → Nat)
    (pages : List (Option (PageResp ShkRec))) : List (Nat × Nat) :=
  minFilter MIN_POINTS_PER_HEX (obisPaginate (recStep cell) pages 0 none [])

/-- `fetch_one_species_period`: paginate, count by (date, cell), then
apply the minimum-count filter at the module threshold. -/
def fetch_one_species_period (cell : Rat → Rat → Nat)
    (pages : List (Option (PageResp ShkRecP))) : List ((String × Nat) × Nat) :=
  minFilter MIN_POINTS_PER_HEX (obisPaginate (recStepP cell) pages 0 none [])

/-! ### Idempotent-sink event traces
(`search_and_download_month` in `download_full_sst.py` lines 259-312,
`save_period_csv` / `main` in `download_full_sharks.py` lines 298-323). -/

/-- Observable actions of one month unit of `search_and_download_month`:
the catalog search, the bulk download, the per-file CSV existence check,
and the per-file CSV export. -/
inductive PipeEv
  | search
  | download
  | existsCheck (g : Nat)
  | exportCsv (g : Nat)
deriving DecidableEq, Repr

/-- Environment of one month unit: the granules the search returns (the
download returns the same files), and which output CSVs already exist. -/
structure SstEnv where
  searchResults : List Nat
  csvExists : Nat → Bool

/-- Per-file body of the download loop: check whether the CSV exists;
if so skip, otherwise export it. -/
def sdmStep (env : SstEnv) (acc : List PipeEv × Nat) (f : Nat) :
    List PipeEv × Nat :=
  if env.csvExists f then (acc.1 ++ [PipeEv.existsCheck f], acc.2)
  else (acc.1 ++ [PipeEv.existsCheck f, PipeEv.exportCsv f], acc.2 + 1)

/-- `search_and_download_month` as an event trace: search first; if the
search is empty return immediately; otherwise download, then walk the
files.  Returns (trace, downloaded count, exported count). -/
def search_and_download_month (env : SstEnv) : List PipeEv × Nat × Nat :=
  if env.searchResults.isEmpty then ([PipeEv.search], 0, 0)
  else
    let r := env.searchResults.foldl (sdmStep env)
      ([PipeEv.search, PipeEv.download], 0)
    (r.1, env.searchResults.length, r.2)

/-- Observable actions of the sharks period driver: the per-species
period fetches (network), then the CSV existence check and write. -/
inductive SharkEv
  | fetchPeriod (species : Nat)
  | saveExistsCheck
  | saveWrite
deriving DecidableEq, Repr

/-- `save_period_csv`: with `SKIP_IF_EXISTS`, an existing output CSV
suppresses the write (the only thing the existence check gates). -/
def save_period_csv (existsAlready : Bool) : List SharkEv :=
  if SKIP_IF_EXISTS && existsAlready then [SharkEv.saveExistsCheck]
  else [SharkEv.saveExistsCheck, SharkEv.saveWrite]

/-- `main` of `download_full_sharks.py`: fetch every species for the
whole period (network I/O), and only then — if the result is nonempty —
consult the existence check inside `save_period_csv`. -/
def sharks_main_trace (speciesCount : Nat) (existsAlready : Bool)
    (resultEmpty : Bool) : List SharkEv :=
  let fetches := (List.range speciesCount).map SharkEv.fetchPeriod
  if resultEmpty then fetches else fetches ++ save_period_csv existsAlready

/-! ### Singleton authentication state machine
(`EarthAccessManager.authenticate` / `reset_authentication`,
`earthaccess_manager.py` lines 44-82 and 338-341). -/

/-- What `earthaccess.login` does when actually called: returns a truthy
auth, returns a falsy one, or raises. -/
inductive LoginOutcome
  | success
  | failure
  | raised
deriving DecidableEq, Repr

/-- The class-level flags `_authenticated` and `_auth_failed`. -/
structure AuthState where
  authenticated : Bool
  authFailed : Bool
deriving DecidableEq, Repr

/-- `authenticate`: returns (result, new state, whether the remote login
was contacted).  Cached success returns `True` immediately; a recorded
failure returns `False` immediately; otherwise the login runs and the
corresponding flag is set. -/
def authenticate (st : AuthState) (o : LoginOutcome) :
    Bool × AuthState × Bool :=
  if st.authenticated then (true, st, false)
  else if st.authFailed then (false, st, false)
  else
    match o with
    | .success => (true, ⟨true, st.authFailed⟩, true)
    | .failure => (false, ⟨st.authenticated, true⟩, true)
    | .raised => (false, ⟨st.authenticated, true⟩, true)

/-- `reset_authentication`: clear both flags. -/
def reset_authentication (_ : AuthState) : AuthState := ⟨false, false⟩

/-- A sequence of `authenticate` calls (each with the outcome the remote
login would have had); returns the final state and the number of calls
that actually contacted the remote service. -/
def authRun (st : AuthState) : List LoginOutcome → AuthState × Nat
  | [] => (st, 0)
  | o :: os =>
    let r := authenticate st o
    let rest := authRun r.2.1 os
    (rest.1, (if r.2.2 then 1 else 0) + rest.2)

/-! ### Date resolver (`_infer_date_string`, `download_full_sst.py` lines
152-177 and identically `download_full_plancton.py` lines 141-166).

A dataset's global attributes are modelled as a partial map
`ds : String -> Option String` (combining `hasattr`/`getattr`).  String
parsing mirrors the Python calls: `datetime.fromisoformat` (after
`replace("Z", "+00:00")`) succeeds on `YYYY-MM-DD` optionally followed
by `T` and a valid `HH:MM:SS` time (sub-second or offset suffixes are
accepted without deep validation), and `strptime(s, "%Y%m%d")` on a
valid 8-digit date.  Parse failures are the caught exceptions. -/

/-- Numeric value of a digit character. -/
def digitVal (c : Char) : Nat := c.toNat - 48

/-- The number denoted by a digit string. -/
def parseDigits (cs : List Char) : Nat :=
  cs.foldl (fun acc c => acc * 10 + digitVal c) 0

/-- Zero-padded decimal rendering (as `strftime` field widths). -/
def padNum (width : Nat) (n : Nat) : String :=
  let s := toString n
  if s.length < width then String.mk (List.replicate (width - s.length) '0') ++ s
  else s

/-- `strftime("%Y-%m-%d")`. -/
def fmtDate (d : Date) : String :=
  padNum 4 d.year.toNat ++ "-" ++ padNum 2 d.month ++ "-" ++ padNum 2 d.day

/-- Parse `YYYY-MM-DD` (the first ten characters of an ISO timestamp),
validating the calendar (Python dates also require year ≥ 1). -/
def parseIsoDate (cs : List Char) : Option Date :=
  match cs with
  | [y1, y2, y3, y4, h1, m1, m2, h2, d1, d2] =>
    if [y1, y2, y3, y4, m1, m2, d1, d2].all Char.isDigit &&
        h1 == '-' && h2 == '-' then
      let y := parseDigits [y1, y2, y3, y4]
      let mo := parseDigits [m1, m2]
      let dy := parseDigits [d1, d2]
      if 1 ≤ y ∧ 1 ≤ mo ∧ mo ≤ 12 ∧ 1 ≤ dy ∧ dy ≤ daysInMonth (y : Int) mo then
        some ⟨y, mo, dy⟩
      else none
    else none
  | _ => none

/-- Validate the time part after the `T` separator: `HH:MM:SS` with an
optionally following fractional-second or offset suffix. -/
def validTimePart (cs : List Char) : Bool :=
  match cs with
  | h1 :: h2 :: c1 :: mi1 :: mi2 :: c2 :: s1 :: s2 :: rest =>
    [h1, h2, mi1, mi2, s1, s2].all Char.isDigit && c1 == ':' && c2 == ':' &&
      decide (parseDigits [h1, h2] ≤ 23) && decide (parseDigits [mi1, mi2] ≤ 59) &&
      decide (parseDigits [s1, s2] ≤ 59) &&
      (rest.isEmpty || rest.headD ' ' == '.' || rest.headD ' ' == '+' ||
        rest.headD ' ' == '-')
  | _ => false

/-- `datetime.fromisoformat` restricted to what the resolver needs: the
calendar-day prefix is returned; the whole string must be a date or a
date, a `T`, and a valid time. -/
def pyFromIsoformat (s : String) : Option Date :=
  let cs := s.toList
  match parseIsoDate (cs.take 10) with
  | none => none
  | some d =>
    match cs.drop 10 with
    | [] => some d
    | 'T' :: rest => if validTimePart rest then some d else none
    | _ => none

/-- `strptime(s, "%Y%m%d")` for an 8-digit string. -/
def parseYmd8 (cs : List Char) : Option Date :=
  match cs with
  | [y1, y2, y3, y4, m1, m2, d1, d2] =>
    let y := parseDigits [y1, y2, y3, y4]
    let mo := parseDigits [m1, m2]
    let dy := parseDigits [d1, d2]
    if 1 ≤ y ∧ 1 ≤ mo ∧ mo ≤ 12 ∧ 1 ≤ dy ∧ dy ≤ daysInMonth (y : Int) mo then
      some ⟨y, mo, dy⟩
    else none
  | _ => none

/-- The attribute-parsing body of the resolver loop: a string containing
`T` is parsed as a full timestamp (after `replace("Z", "+00:00")`); an
8-digit numeric string as `YYYYMMDD`; anything else (parse failures
included) yields nothing and the loop moves on. -/
def parseAttrValue (s : String) : Option String :=
  if s.contains 'T' then
    (pyFromIsoformat (s.replace "Z" "+00:00")).map fmtDate
  else if s.length = 8 && s.toList.all Char.isDigit then
    (parseYmd8 s.toList).map fmtDate
  else none

/-- The resolver's attribute loop: first present attribute whose value
parses wins; absent, empty or unparsable values fall through. -/
def tryAttrs (ds : String → Option String) : List String → Option String
  | [] => none
  | a :: rest =>
    match ds a with
    | none => tryAttrs ds rest
    | some s =>
      match parseAttrValue s with
      | some out => some out
      | none => tryAttrs ds rest

/-- `re.search(r"A(\d{7})", fname)`: the leftmost `A` followed by seven
digits, split as a 4-digit year and a 3-digit day-of-year. -/
def findA7 : List Char → Option (Nat × Nat)
  | [] => none
  | c :: rest =>
    if c == 'A' && (rest.take 7).length = 7 && (rest.take 7).all Char.isDigit then
      some (parseDigits (rest.take 4), parseDigits ((rest.drop 4).take 3))
    else findA7 rest

/-- The filename strategy: on a match, `datetime(year, 1, 1) +
timedelta(days=doy - 1)`.  This arithmetic is NOT inside a
`try`/`except`, so `year = 0` (below `datetime.MINYEAR`) or a result
outside Python's year range raises out of the resolver
(`Except.error`). -/
def strat_fname (fname : String) : Option (Except Unit String) :=
  match findA7 fname.toList with
  | none => none
  | some (yr, doy) =>
    if yr = 0 then some (Except.error ())
    else
      let d := addDays ⟨(yr : Int), 1, 1⟩ ((doy : Int) - 1)
      if d.year < 1 ∨ 9999 < d.year then some (Except.error ())
      else some (Except.ok (fmtDate d))

/-- The creation-timestamp strategy: `date_created`, accepted only as a
full timestamp (a parse failure is caught and falls through). -/
def strat_created (ds : String → Option String) : Option String :=
  match ds "date_created" with
  | none => none
  | some s =>
    if s.contains 'T' then (pyFromIsoformat (s.replace "Z" "+00:00")).map fmtDate
    else none

/-- `_infer_date_string`, following the code line by line: the four
metadata attributes in order, then the filename pattern, then
`date_created`, then the sentinel string. -/
def infer_date_string (ds : String → Option String) (fname : String) :
    Except Unit String :=
  match tryAttrs ds
      ["time_coverage_start", "start_time", "time_coverage_end", "end_time"] with
  | some d => Except.ok d
  | none =>
    match strat_fname fname with
    | some r => r
    | none =>
      match strat_created ds with
      | some d => Except.ok d
      | none => Except.ok "data_nao_encontrada"

/-- Strategy (1) of the spec: the time-range-start attributes. -/
def strat_time_range_start (ds : String → Option String) : Option String :=
  tryAttrs ds ["time_coverage_start", "start_time"]

/-- Strategy (2) of the spec: the time-range-end attributes. -/
def strat_time_range_end (ds : String → Option String) : Option String :=
  tryAttrs ds ["time_coverage_end", "end_time"]

/-! ### Order and arithmetic lemmas for the date model -/

lemma Date.mk_le_mk {y1 y2 : Int} {m1 d1 m2 d2 : Nat} :
    (⟨y1, m1, d1⟩ : Date) ≤ ⟨y2, m2, d2⟩ ↔
      (y1 < y2 ∨ (y1 = y2 ∧ (m1 < m2 ∨ (m1 = m2 ∧ d1 ≤ d2)))) := Iff.rfl

lemma Date.mk_lt_mk {y1 y2 : Int} {m1 d1 m2 d2 : Nat} :
    (⟨y1, m1, d1⟩ : Date) < ⟨y2, m2, d2⟩ ↔
      (y1 < y2 ∨ (y1 = y2 ∧ (m1 < m2 ∨ (m1 = m2 ∧ d1 < d2)))) := Iff.rfl

lemma Date.not_le {a b : Date} : ¬ a ≤ b ↔ b < a := by
  obtain ⟨y1, m1, d1⟩ := a; obtain ⟨y2, m2, d2⟩ := b
  simp only [Date.mk_le_mk, Date.mk_lt_mk]; omega

lemma Date.le_refl (a : Date) : a ≤ a := by
  obtain ⟨y, m, d⟩ := a; simp [Date.mk_le_mk]

lemma Date.le_trans {a b c : Date} (h1 : a ≤ b) (h2 : b ≤ c) : a ≤ c := by
  obtain ⟨y1, m1, d1⟩ := a; obtain ⟨y2, m2, d2⟩ := b; obtain ⟨y3, m3, d3⟩ := c
  simp only [Date.mk_le_mk] at *; omega

lemma Date.le_of_lt {a b : Date} (h : a < b) : a ≤ b := by
  obtain ⟨y1, m1, d1⟩ := a; obtain ⟨y2, m2, d2⟩ := b
  simp only [Date.mk_le_mk, Date.mk_lt_mk] at *; omega

lemma Date.lt_of_lt_of_le {a b c : Date} (h1 : a < b) (h2 : b ≤ c) : a < c := by
  obtain ⟨y1, m1, d1⟩ := a; obtain ⟨y2, m2, d2⟩ := b; obtain ⟨y3, m3, d3⟩ := c
  simp only [Date.mk_le_mk, Date.mk_lt_mk] at *; omega

lemma Date.le_antisymm {a b : Date} (h1 : a ≤ b) (h2 : b ≤ a) : a = b := by
  obtain ⟨y1, m1, d1⟩ := a; obtain ⟨y2, m2, d2⟩ := b
  simp only [Date.mk_le_mk] at *
  simp only [Date.mk.injEq]; omega

lemma dim_ge (y : Int) (m : Nat) : 28 ≤ daysInMonth y m := by
  unfold daysInMonth; split_ifs <;> omega

lemma dim_le (y : Int) (m : Nat) : daysInMonth y m ≤ 31 := by
  unfold daysInMonth; split_ifs <;> omega

lemma dim_jan (y : Int) : daysInMonth y 1 = 31 := by simp [daysInMonth]

lemma dim_dec (y : Int) : daysInMonth y 12 = 31 := by simp [daysInMonth]

lemma succDay_valid {d : Date} (h : d.Valid) : (succDay d).Valid := by
  obtain ⟨y, m, dd⟩ := d
  obtain ⟨h1, h2, h3, h4⟩ := h
  dsimp only at h1 h2 h3 h4
  have g1 := dim_ge y (m + 1)
  have g2 := dim_jan (y + 1)
  unfold succDay Date.Valid
  dsimp only
  split_ifs with ha hb <;> dsimp only <;> omega

lemma succDay_le_iff {a b : Date} (ha : a.Valid) (hb : b.Valid) :
    succDay a ≤ b ↔ a < b := by
  obtain ⟨y1, m1, d1⟩ := a; obtain ⟨y2, m2, d2⟩ := b
  obtain ⟨ha1, ha2, ha3, ha4⟩ := ha
  obtain ⟨hb1, hb2, hb3, hb4⟩ := hb
  dsimp only at ha1 ha2 ha3 ha4 hb1 hb2 hb3 hb4
  have hdd : y1 = y2 → m1 = m2 → daysInMonth y1 m1 = daysInMonth y2 m2 := by
    intro e1 e2; rw [e1, e2]
  unfold succDay
  dsimp only
  split_ifs with h1 h2 <;> simp only [Date.mk_le_mk, Date.mk_lt_mk] <;> omega

lemma lt_succDay {a : Date} (ha : a.Valid) : a < succDay a := by
  obtain ⟨y, m, d⟩ := a
  obtain ⟨h1, h2, h3, h4⟩ := ha
  dsimp only at h1 h2 h3 h4
  unfold succDay
  dsimp only
  split_ifs with hc hc2 <;> rw [Date.mk_lt_mk] <;> omega

lemma nextMonthStart_eq (d : Date) (h1 : 1 ≤ d.month) (h2 : d.month ≤ 12) :
    nextMonthStart d =
      if d.month < 12 then ⟨d.year, d.month + 1, 1⟩ else ⟨d.year + 1, 1, 1⟩ := by
  obtain ⟨y, m, dd⟩ := d
  dsimp only at h1 h2 ⊢
  interval_cases m <;>
    cases hL : isLeap y <;>
      simp [nextMonthStart, succDay, daysInMonth, firstOfMonth, hL]

lemma nms_valid {d : Date} (h1 : 1 ≤ d.month) (h2 : d.month ≤ 12) :
    (nextMonthStart d).Valid := by
  rw [nextMonthStart_eq d h1 h2]
  have g1 := dim_ge d.year (d.month + 1)
  have g2 := dim_jan (d.year + 1)
  unfold Date.Valid
  split_ifs with h <;> dsimp only <;> omega

lemma nms_day1 {d : Date} (h1 : 1 ≤ d.month) (h2 : d.month ≤ 12) :
    (nextMonthStart d).day = 1 := by
  rw [nextMonthStart_eq d h1 h2]; split_ifs <;> rfl

lemma monthIdx_nms {d : Date} (h1 : 1 ≤ d.month) (h2 : d.month ≤ 12) :
    monthIdx (nextMonthStart d) = monthIdx d + 1 := by
  rw [nextMonthStart_eq d h1 h2]
  unfold monthIdx
  split_ifs with h <;> dsimp only <;> omega

lemma predDay_nms {d : Date} (h1 : 1 ≤ d.month) (h2 : d.month ≤ 12) :
    predDay (nextMonthStart d) = lastOfMonth d := by
  rw [nextMonthStart_eq d h1 h2]
  unfold lastOfMonth
  split_ifs with hm
  · unfold predDay
    dsimp only
    have e1 : d.month + 1 - 1 = d.month := by omega
    rw [if_neg (by omega), if_pos (by omega), e1]
  · have hm12 : d.month = 12 := by omega
    unfold predDay
    dsimp only
    rw [if_neg (by omega), if_neg (by omega), hm12, dim_dec]
    congr 1
    omega

lemma succDay_lom {d : Date} (h1 : 1 ≤ d.month) (h2 : d.month ≤ 12) :
    succDay (lastOfMonth d) = nextMonthStart d := by
  rw [nextMonthStart_eq d h1 h2]
  unfold succDay lastOfMonth
  dsimp only
  rw [if_neg (by omega)]

lemma lom_valid {d : Date} (h1 : 1 ≤ d.month) (h2 : d.month ≤ 12) :
    (lastOfMonth d).Valid := by
  have g1 := dim_ge d.year d.month
  unfold lastOfMonth Date.Valid
  dsimp only
  omega

lemma lom_lt_nms {d : Date} (h1 : 1 ≤ d.month) (h2 : d.month ≤ 12) :
    lastOfMonth d < nextMonthStart d := by
  rw [← succDay_lom h1 h2]
  exact lt_succDay (lom_valid h1 h2)

lemma day1_lt_nms {d : Date} (h1 : 1 ≤ d.month) (h2 : d.month ≤ 12) :
    d < nextMonthStart d := by
  rw [nextMonthStart_eq d h1 h2]
  obtain ⟨y, m, dd⟩ := d
  dsimp only at h1 h2 ⊢
  split_ifs with h <;> rw [Date.mk_lt_mk] <;> omega

lemma day1_le_iff {a b : Date} (ha1 : 1 ≤ a.month) (ha2 : a.month ≤ 12)
    (hb1 : 1 ≤ b.month) (hb2 : b.month ≤ 12) (hda : a.day = b.day) :
    a ≤ b ↔ monthIdx a ≤ monthIdx b := by
  obtain ⟨y1, m1, d1⟩ := a; obtain ⟨y2, m2, d2⟩ := b
  dsimp only [monthIdx] at *
  simp only [Date.mk_le_mk]
  omega

lemma dmin_eq_left {a b : Date} (h : a ≤ b) : dmin a b = a := if_pos h

lemma dmin_eq_right {a b : Date} (h : b ≤ a) : dmin a b = b := by
  unfold dmin
  split_ifs with h2
  · exact Date.le_antisymm h2 h
  · rfl

lemma day1_eq_of_idx {a b : Date} (ha1 : 1 ≤ a.month) (ha2 : a.month ≤ 12)
    (hb1 : 1 ≤ b.month) (hb2 : b.month ≤ 12) (hda : a.day = b.day)
    (h : monthIdx a = monthIdx b) : a = b := by
  obtain ⟨y1, m1, d1⟩ := a; obtain ⟨y2, m2, d2⟩ := b
  dsimp only [monthIdx] at *
  have hy : y1 = y2 ∧ m1 = m2 := by omega
  simp only [Date.mk.injEq]
  exact ⟨hy.1, hy.2, hda⟩

lemma fom_valid {d : Date} (h1 : 1 ≤ d.month) (h2 : d.month ≤ 12) :
    (firstOfMonth d).Valid := by
  have := dim_ge d.year d.month
  unfold firstOfMonth Date.Valid
  dsimp only
  omega

lemma fom_day1 (d : Date) : (firstOfMonth d).day = 1 := rfl

lemma fom_le_self {d : Date} (h : 1 ≤ d.day) : firstOfMonth d ≤ d := by
  obtain ⟨y, m, dd⟩ := d
  unfold firstOfMonth
  dsimp only
  rw [Date.mk_le_mk]
  dsimp only at h
  omega

lemma le_lom {d : Date} (h : d.Valid) : d ≤ lastOfMonth d := by
  obtain ⟨y, m, dd⟩ := d
  obtain ⟨h1, h2, h3, h4⟩ := h
  unfold lastOfMonth
  rw [Date.mk_le_mk]
  dsimp only at *
  omega

lemma fom_mono {a b : Date} (h : a ≤ b) : firstOfMonth a ≤ firstOfMonth b := by
  obtain ⟨y1, m1, d1⟩ := a; obtain ⟨y2, m2, d2⟩ := b
  unfold firstOfMonth
  dsimp only
  rw [Date.mk_le_mk]
  rw [Date.mk_le_mk] at h
  omega

lemma lom_fom (d : Date) : lastOfMonth (firstOfMonth d) = lastOfMonth d := rfl

lemma monthWindowsGo_succ (theEnd last : Date) (fuel : Nat) (cur : Date) :
    monthWindowsGo theEnd last (fuel + 1) cur =
      if cur ≤ last then
        (cur, dmin (predDay (nextMonthStart cur)) theEnd)
          :: monthWindowsGo theEnd last fuel (nextMonthStart cur)
      else [] := rfl

lemma monthWindowsGo_spec (B : Date) (hB : B.Valid) :
    ∀ (fuel : Nat) (cur : Date), cur.Valid → cur.day = 1 →
      (fuel : Int) = monthIdx (firstOfMonth B) + 1 - monthIdx cur →
      cur ≤ firstOfMonth B →
      WinSpec B cur (monthWindowsGo B (firstOfMonth B) fuel cur) := by
  intro fuel
  induction fuel with
  | zero =>
    intro cur hv hd hf hle
    exfalso
    have hidx : monthIdx cur ≤ monthIdx (firstOfMonth B) :=
      (@day1_le_iff cur (firstOfMonth B) hv.1 hv.2.1 hB.1 hB.2.1
        (by rw [hd, fom_day1])).mp hle
    omega
  | succ n ih =>
    intro cur hv hd hf hle
    have hm1 : 1 ≤ cur.month := hv.1
    have hm2 : cur.month ≤ 12 := hv.2.1
    have hBle : firstOfMonth B ≤ B := fom_le_self hB.2.2.1
    rw [monthWindowsGo_succ, if_pos hle, predDay_nms hm1 hm2]
    have hidx : monthIdx cur ≤ monthIdx (firstOfMonth B) :=
      (@day1_le_iff cur (firstOfMonth B) hm1 hm2 hB.1 hB.2.1
        (by rw [hd, fom_day1])).mp hle
    rcases eq_or_lt_of_le hidx with heq | hlt
    · -- final month: `cur` is the first day of `B`'s month
      have hcur : cur = firstOfMonth B :=
        day1_eq_of_idx hm1 hm2 hB.1 hB.2.1 (by rw [hd, fom_day1]) heq
      have hn : n = 0 := by omega
      subst hn
      have hend : dmin (lastOfMonth cur) B = B := by
        rw [hcur, lom_fom]
        exact dmin_eq_right (le_lom hB)
      rw [hend]
      rw [show monthWindowsGo B (firstOfMonth B) 0 (nextMonthStart cur) = [] from rfl]
      have hcurB : cur ≤ B := hcur ▸ hBle
      refine ⟨⟨B, rfl⟩, ⟨cur, rfl⟩, List.chain'_singleton _, ?_, ?_, ?_, ?_⟩
      · intro w hw
        rw [List.mem_singleton] at hw
        subst hw
        exact ⟨hcurB, hv, hB, hd⟩
      · intro w hw
        simp only [List.dropLast_single] at hw
        exact absurd hw (List.not_mem_nil w)
      · intro w hw
        rw [List.mem_singleton] at hw
        subst hw
        exact ⟨Date.le_refl cur, Date.le_refl B⟩
      · intro d hdv
        constructor
        · rintro ⟨w, hw, h1, h2⟩
          rw [List.mem_singleton] at hw
          subst hw
          exact ⟨h1, h2⟩
        · intro h
          exact ⟨(cur, B), List.mem_singleton_self _, h.1, h.2⟩
    · -- a full month, then recurse on the next month
      have hnv : (nextMonthStart cur).Valid := nms_valid hm1 hm2
      have hnd : (nextMonthStart cur).day = 1 := nms_day1 hm1 hm2
      have hni : monthIdx (nextMonthStart cur) = monthIdx cur + 1 := monthIdx_nms hm1 hm2
      have hnle : nextMonthStart cur ≤ firstOfMonth B :=
        (@day1_le_iff (nextMonthStart cur) (firstOfMonth B) hnv.1 hnv.2.1 hB.1 hB.2.1
          (by rw [hnd, fom_day1])).mpr (by omega)
      have hfuel : (n : Int) = monthIdx (firstOfMonth B) + 1 - monthIdx (nextMonthStart cur) := by
        omega
      have IH := ih (nextMonthStart cur) hnv hnd hfuel hnle
      have hlomB : lastOfMonth cur ≤ B :=
        Date.le_of_lt (Date.lt_of_lt_of_le (lom_lt_nms hm1 hm2) (Date.le_trans hnle hBle))
      rw [dmin_eq_left hlomB]
      have hcurlt : cur < nextMonthStart cur := day1_lt_nms hm1 hm2
      obtain ⟨IH1, IH2, IH3, IH4, IH5, IH6, IH7⟩ := IH
      obtain ⟨e1, hhead⟩ := IH1
      rcases hWsh : monthWindowsGo B (firstOfMonth B) n (nextMonthStart cur) with _ | ⟨w1, rest⟩
      · rw [hWsh] at hhead
        exact absurd hhead (by simp)
      · rw [hWsh] at hhead IH2 IH3 IH4 IH5 IH6 IH7
        have hw1 : w1 = (nextMonthStart cur, e1) := by
          simpa using hhead
        refine ⟨⟨lastOfMonth cur, rfl⟩, ?_, ?_, ?_, ?_, ?_, ?_⟩
        · obtain ⟨s, hs⟩ := IH2
          exact ⟨s, by rw [List.getLast?_cons_cons]; exact hs⟩
        · rw [List.chain'_cons]
          refine ⟨?_, IH3⟩
          rw [hw1]
          exact (succDay_lom hm1 hm2).symm
        · intro w hw
          rw [List.mem_cons] at hw
          rcases hw with hw | hw
          · subst hw
            exact ⟨le_lom hv, hv, lom_valid hm1 hm2, hd⟩
          · exact IH4 w hw
        · intro w hw
          rw [List.dropLast_cons₂] at hw
          rw [List.mem_cons] at hw
          rcases hw with hw | hw
          · subst hw
            rfl
          · exact IH5 w hw
        · intro w hw
          rw [List.mem_cons] at hw
          rcases hw with hw | hw
          · subst hw
            exact ⟨Date.le_refl cur, hlomB⟩
          · refine ⟨?_, (IH6 w hw).2⟩
            exact Date.le_trans (Date.le_of_lt hcurlt) (IH6 w hw).1
        · intro d hdv
          constructor
          · rintro ⟨w, hw, h1, h2⟩
            rw [List.mem_cons] at hw
            rcases hw with hw | hw
            · subst hw
              exact ⟨h1, Date.le_trans h2 hlomB⟩
            · have := (IH7 d hdv).mp ⟨w, hw, h1, h2⟩
              exact ⟨Date.le_trans (Date.le_of_lt hcurlt) this.1, this.2⟩
          · rintro ⟨hcd, hdB⟩
            by_cases hdl : d ≤ lastOfMonth cur
            · exact ⟨(cur, lastOfMonth cur), List.mem_cons_self _ _, hcd, hdl⟩
            · have hlomd : lastOfMonth cur < d := Date.not_le.mp hdl
              have hnled : nextMonthStart cur ≤ d := by
                rw [← succDay_lom hm1 hm2]
                exact (succDay_le_iff (lom_valid hm1 hm2) hdv).mpr hlomd
              obtain ⟨w, hw, hx1, hx2⟩ := (IH7 d hdv).mpr ⟨hnled, hdB⟩
              exact ⟨w, List.mem_cons_of_mem _ hw, hx1, hx2⟩

lemma monthWindows_spec {A B : Date} (hA : A.Valid) (hB : B.Valid) (hAB : A ≤ B) :
    WinSpec B (firstOfMonth A) (monthWindows A B) := by
  unfold monthWindows
  have hle : firstOfMonth A ≤ firstOfMonth B := fom_mono hAB
  have hidx : monthIdx (firstOfMonth A) ≤ monthIdx (firstOfMonth B) :=
    (@day1_le_iff (firstOfMonth A) (firstOfMonth B) hA.1 hA.2.1 hB.1 hB.2.1 rfl).mp hle
  refine monthWindowsGo_spec B hB _ (firstOfMonth A) (fom_valid hA.1 hA.2.1) rfl ?_ hle
  omega

lemma eq_fom_of_day1 {d : Date} (h : d.day = 1) : d = firstOfMonth d := by
  obtain ⟨y, m, dd⟩ := d
  dsimp only at h
  unfold firstOfMonth
  rw [h]

lemma chain_pairwise_aux :
    ∀ (W : List (Date × Date)),
      List.Chain' (fun a b => b.1 = succDay a.2) W →
      (∀ w ∈ W, w.1 ≤ w.2 ∧ w.2.Valid) →
      List.Pairwise (fun a b => a.2 < b.1) W ∧
      (∀ x : Date, (∀ e ∈ W.head?, x < e.1) → ∀ w ∈ W, x < w.1) := by
  intro W
  induction W with
  | nil => intro _ _; exact ⟨List.Pairwise.nil, fun x _ w hw => absurd hw (List.not_mem_nil w)⟩
  | cons a W ihW =>
    intro hch hok
    rw [List.chain'_cons'] at hch
    obtain ⟨hrel, hch2⟩ := hch
    have hokW : ∀ w ∈ W, w.1 ≤ w.2 ∧ w.2.Valid := fun w hw => hok w (List.mem_cons_of_mem a hw)
    have haok := hok a (List.mem_cons_self a W)
    obtain ⟨IHpw, IHbd⟩ := ihW hch2 hokW
    have hbelow : ∀ w ∈ W, a.2 < w.1 := by
      apply IHbd
      intro e he
      rw [hrel e he]
      exact lt_succDay haok.2
    constructor
    · exact List.Pairwise.cons hbelow IHpw
    · intro x hx w hw
      rw [List.mem_cons] at hw
      rcases hw with hw | hw
      · subst hw; exact hx _ rfl
      · refine IHbd x ?_ w hw
        intro e he
        rw [hrel e he]
        have hxa : x < a.1 := hx a rfl
        exact Date.lt_of_lt_of_le hxa
          (Date.le_trans haok.1 (Date.le_of_lt (lt_succDay haok.2)))

lemma monthWindows_single {A : Date} (hA : A.Valid) :
    monthWindows A A = [(firstOfMonth A, A)] := by
  unfold monthWindows
  have hfuel : (monthIdx (firstOfMonth A) + 1 - monthIdx (firstOfMonth A)).toNat = 1 := by
    omega
  rw [hfuel, monthWindowsGo_succ, if_pos (Date.le_refl _),
    @predDay_nms (firstOfMonth A) hA.1 hA.2.1, lom_fom, dmin_eq_right (le_lom hA)]
  rfl

/-- C1: FALSE as stated.  For A = 2015-01-15 and B = 2015-02-10 the first
window produced by `month_windows` starts at 2015-01-01 — the first day of
A's month — not at A; and the zero-day range A = B = 2015-01-15 yields the
window [2015-01-01, 2015-01-15], not [A, A].  The start of the range is
never clamped. -/
theorem C1_month_windows_counterexample :
    monthWindows ⟨2015, 1, 15⟩ ⟨2015, 2, 10⟩ =
        [(⟨2015, 1, 1⟩, ⟨2015, 1, 31⟩), (⟨2015, 2, 1⟩, ⟨2015, 2, 10⟩)] ∧
    ¬ ((monthWindows ⟨2015, 1, 15⟩ ⟨2015, 2, 10⟩).head?.map Prod.fst =
        some ⟨2015, 1, 15⟩) ∧
    monthWindows ⟨2015, 1, 15⟩ ⟨2015, 1, 15⟩ = [(⟨2015, 1, 1⟩, ⟨2015, 1, 15⟩)] ∧
    monthWindows ⟨2015, 1, 15⟩ ⟨2015, 1, 15⟩ ≠
        [((⟨2015, 1, 15⟩ : Date), (⟨2015, 1, 15⟩ : Date))] := by
  decide

/-- C1 (amended): for valid dates A ≤ B, `month_windows(A, B)` yields an
ascending, contiguous, non-overlapping sequence of calendar-month windows
whose union is exactly [firstOfMonth A, B] (the first window's start is
the FIRST DAY OF A's MONTH, not A): the sequence is nonempty, starts at
firstOfMonth A, its last window ends at B, consecutive windows are
day-contiguous, windows are pairwise disjoint and ascending, every
non-final window spans exactly one calendar month, a valid date lies in
some window iff it lies in [firstOfMonth A, B], and a zero-day range
A = B yields exactly one window [firstOfMonth A, A]. -/
theorem C1_month_windows_amended (A B : Date) (hA : A.Valid) (hB : B.Valid)
    (hAB : A ≤ B) :
    monthWindows A B ≠ [] ∧
    (∃ e, (monthWindows A B).head? = some (firstOfMonth A, e)) ∧
    (∃ s, (monthWindows A B).getLast? = some (s, B)) ∧
    List.Chain' (fun w1 w2 => w2.1 = succDay w1.2) (monthWindows A B) ∧
    List.Pairwise (fun w1 w2 => w1.2 < w2.1) (monthWindows A B) ∧
    (∀ w ∈ monthWindows A B, w.1 ≤ w.2) ∧
    (∀ w ∈ (monthWindows A B).dropLast,
      w.1 = firstOfMonth w.1 ∧ w.2 = lastOfMonth w.1) ∧
    (∀ d : Date, d.Valid →
      ((∃ w ∈ monthWindows A B, w.1 ≤ d ∧ d ≤ w.2) ↔
        (firstOfMonth A ≤ d ∧ d ≤ B))) ∧
    (A = B → monthWindows A B = [(firstOfMonth A, A)]) := by
  obtain ⟨S1, S2, S3, S4, S5, S6, S7⟩ := monthWindows_spec hA hB hAB
  have hpw := (chain_pairwise_aux (monthWindows A B) S3
    (fun w hw => ⟨(S4 w hw).1, (S4 w hw).2.2.1⟩)).1
  refine ⟨?_, S1, S2, S3, hpw, fun w hw => (S4 w hw).1, ?_, S7, ?_⟩
  · intro hnil
    obtain ⟨e, he⟩ := S1
    rw [hnil] at he
    exact absurd he (by simp)
  · intro w hw
    have hw2 := S5 w hw
    have hwW : w ∈ monthWindows A B := List.dropLast_subset _ hw
    exact ⟨eq_fom_of_day1 (S4 w hwW).2.2.2, hw2⟩
  · intro hABeq
    subst hABeq
    exact monthWindows_single hA

/-- Witness for `C1_month_windows_amended` at A = 2015-01-15, B = 2015-02-10. -/
theorem C1_month_windows_amended_witness :
    ∃ e, (monthWindows ⟨2015, 1, 15⟩ ⟨2015, 2, 10⟩).head? =
      some (firstOfMonth ⟨2015, 1, 15⟩, e) :=
  (C1_month_windows_amended ⟨2015, 1, 15⟩ ⟨2015, 2, 10⟩ (by decide) (by decide)
    (by decide)).2.1

/-! ### Aggregation lemmas and claims C2, C4, C6 -/

lemma filterMap_snd_length (l : List (Rat × Rat × Option Rat))
    (h : ∀ r ∈ l, r.2.2.isSome = true) :
    (l.filterMap (fun r => r.2.2)).length = l.length := by
  induction l with
  | nil => rfl
  | cons a t ih =>
    have ha := h a (List.mem_cons_self a t)
    have iht := ih (fun r hr => h r (List.mem_cons_of_mem a hr))
    cases hv : a.2.2 with
    | none => rw [hv] at ha; exact absurd ha (by simp)
    | some v =>
      simp only [List.filterMap_cons, hv, List.length_cons]
      rw [iht]

lemma cellValues_length (cell : Rat → Rat → Nat)
    (rows : List (Rat × Rat × Option Rat)) (h : Nat) :
    (cellValues cell rows h).length =
      (rows.filter (fun r => r.2.2.isSome && (cell r.1 r.2.1 == h))).length := by
  unfold cellValues
  apply filterMap_snd_length
  intro r hr
  rw [List.mem_filter] at hr
  have h2 := hr.2
  simp only [Bool.and_eq_true] at h2
  exact h2.1

lemma dropna_filter (cell : Rat → Rat → Nat)
    (rows : List (Rat × Rat × Option Rat)) (h : Nat) :
    (dropnaRows rows).filter (fun r => r.2.2.isSome && (cell r.1 r.2.1 == h)) =
      rows.filter (fun r => r.2.2.isSome && (cell r.1 r.2.1 == h)) := by
  unfold dropnaRows
  rw [List.filter_filter]
  apply List.filter_congr
  intro r _
  cases hr : r.2.2.isSome <;> simp [hr]

lemma cellValues_dropna (cell : Rat → Rat → Nat)
    (rows : List (Rat × Rat × Option Rat)) (h : Nat) :
    cellValues cell (dropnaRows rows) h = cellValues cell rows h := by
  unfold cellValues
  rw [dropna_filter]

lemma export_row {cell : Rat → Rat → Nat} {lats lons : List Rat}
    {g : List (List (Option Rat))} {row : AggRow}
    (hrow : row ∈ export_csv_agg cell lats lons g) :
    ∃ h, row = mkAggRow (cellValues cell (dropnaRows (gridRows lats lons g)) h) h := by
  unfold export_csv_agg at hrow
  rw [List.mem_map] at hrow
  obtain ⟨h, _, heq⟩ := hrow
  exact ⟨h, heq.symm⟩

lemma export_count {cell : Rat → Rat → Nat} {lats lons : List Rat}
    {g : List (List (Option Rat))} {row : AggRow}
    (hrow : row ∈ export_csv_agg cell lats lons g) :
    row.n = ((gridRows lats lons g).filter
      (fun r => r.2.2.isSome && (cell r.1 r.2.1 == row.h3))).length := by
  obtain ⟨h, rfl⟩ := export_row hrow
  unfold mkAggRow
  dsimp only
  rw [cellValues_dropna, cellValues_length]

/-- C2: FALSE as stated.  In `export_csv` (sst and plancton) the grouped
std column has no `fillna`: a cell with a single point gets pandas'
sample std over one value, which is NaN (modelled `none`) — not 0.  The
concrete grid with one point lands in one cell with n = 1 and an
undefined std. -/
theorem C2_count1_std_counterexample :
    export_csv_agg (fun _ _ => 0) [0] [0] [[some 5]] = [⟨0, 5, 5, 5, none, 1⟩] ∧
    (⟨0, 5, 5, 5, none, 1⟩ : AggRow).n = 1 ∧
    (⟨0, 5, 5, 5, none, 1⟩ : AggRow).sst_std ≠ some 0 := by
  refine ⟨?_, rfl, by simp⟩
  simp [export_csv_agg, gridRows, dropnaRows, groupKeys, cellValues, mkAggRow,
    listMean, listMin, listMax, sampleVar, List.insertionSort, List.orderedInsert,
    List.dedup, List.filter, List.filterMap]

/-- C2 (amended): a count-1 group's standard deviation is 0 only in
`aggregate_h3` (`extract_data_sst_nc.py`), whose `sst_std_celsius` column
is explicitly `fillna(0.0)`-ed; in `export_csv` (`download_full_sst.py`
and `download_full_plancton.py`) a count-1 group's `sst_std` /
`chlor_a_std` is NaN (`none`), the pandas sample-std of a singleton. -/
theorem C2_count1_std_amended :
    (∀ (cell : Rat → Rat → Nat) (lats lons : List Rat)
        (g : List (List (Option Rat))),
      ∀ row ∈ export_csv_agg cell lats lons g, row.n = 1 → row.sst_std = none) ∧
    (∀ (cell : Rat → Rat → Nat) (recs : List (Rat × Rat × Rat)),
      ∀ row ∈ aggregate_h3 cell recs,
        row.n_points = 1 → row.sst_std_celsius = 0) := by
  constructor
  · intro cell lats lons g row hrow hn
    obtain ⟨h, rfl⟩ := export_row hrow
    unfold mkAggRow at hn ⊢
    dsimp only at hn ⊢
    unfold sampleVar
    rw [if_pos (by omega)]
  · intro cell recs row hrow hn
    unfold aggregate_h3 at hrow
    rw [List.mem_map] at hrow
    obtain ⟨h, _, heq⟩ := hrow
    subst heq
    unfold mkAggRowH3 at hn ⊢
    dsimp only at hn ⊢
    unfold sampleVar
    rw [if_pos (by omega)]
    rfl

/-- Witness for `C2_count1_std_amended`: the single-record aggregation of
`aggregate_h3` yields std 0. -/
theorem C2_count1_std_amended_witness :
    (⟨7, 3, 0, 1, "low"⟩ : AggRowH3).sst_std_celsius = 0 := by
  have hmem : (⟨7, 3, 0, 1, "low"⟩ : AggRowH3) ∈
      aggregate_h3 (fun _ _ => 7) [(1, 2, 3)] := by
    have hagg : aggregate_h3 (fun _ _ => 7) [(1, 2, 3)] = [⟨7, 3, 0, 1, "low"⟩] := by
      simp [aggregate_h3, mkAggRowH3, listMean, sampleVar, List.insertionSort,
        List.orderedInsert, List.dedup, List.filter]
    rw [hagg]
    exact List.mem_singleton_self _
  exact C2_count1_std_amended.2 (fun _ _ => 7) [(1, 2, 3)] _ hmem rfl

lemma lookup_map_inc {κ : Type} [DecidableEq κ] (m : List (κ × Nat)) (h k : κ)
    (hne : k ≠ h) :
    lookupCount (m.map (fun p => if p.1 = h then (p.1, p.2 + 1) else p)) k =
      lookupCount m k := by
  induction m with
  | nil => rfl
  | cons q t ih =>
    by_cases hqh : q.1 = h
    · rw [List.map_cons, if_pos hqh]
      unfold lookupCount
      rw [if_neg (by dsimp only; rw [hqh]; exact fun hc => hne hc.symm),
        if_neg (by rw [hqh]; exact fun hc => hne hc.symm)]
      exact ih
    · rw [List.map_cons, if_neg hqh]
      unfold lookupCount
      by_cases hqk : q.1 = k
      · rw [if_pos hqk, if_pos hqk]
      · rw [if_neg hqk, if_neg hqk]
        exact ih

lemma lookup_map_inc_same {κ : Type} [DecidableEq κ] (m : List (κ × Nat)) (h : κ)
    (hany : m.any (fun p => decide (p.1 = h)) = true) :
    lookupCount (m.map (fun p => if p.1 = h then (p.1, p.2 + 1) else p)) h =
      lookupCount m h + 1 := by
  induction m with
  | nil => simp at hany
  | cons q t ih =>
    by_cases hqh : q.1 = h
    · rw [List.map_cons, if_pos hqh]
      unfold lookupCount
      rw [if_pos hqh, if_pos hqh]
    · rw [List.map_cons, if_neg hqh]
      unfold lookupCount
      rw [if_neg hqh, if_neg hqh]
      apply ih
      rw [List.any_cons] at hany
      simpa [hqh] using hany

lemma lookup_append_one_ne {κ : Type} [DecidableEq κ] (m : List (κ × Nat))
    (h k : κ) (hne : k ≠ h) :
    lookupCount (m ++ [(h, 1)]) k = lookupCount m k := by
  induction m with
  | nil =>
    rw [List.nil_append]
    have hno : ¬ ((h, 1) : κ × Nat).1 = k := fun hc => hne hc.symm
    simp [lookupCount, hno]
  | cons q t ih =>
    rw [List.cons_append]
    unfold lookupCount
    by_cases hqk : q.1 = k
    · rw [if_pos hqk, if_pos hqk]
    · rw [if_neg hqk, if_neg hqk]
      exact ih

lemma lookup_append_one_same {κ : Type} [DecidableEq κ] (m : List (κ × Nat))
    (h : κ) (hnone : m.any (fun p => decide (p.1 = h)) = false) :
    lookupCount (m ++ [(h, 1)]) h = lookupCount m h + 1 := by
  induction m with
  | nil => simp [lookupCount]
  | cons q t ih =>
    rw [List.any_cons, Bool.or_eq_false_iff] at hnone
    have hqh : ¬ q.1 = h := by
      intro hc
      rw [hc] at hnone
      simp at hnone
    rw [List.cons_append]
    unfold lookupCount
    rw [if_neg hqh, if_neg hqh]
    exact ih hnone.2

lemma bump_lookup_same {κ : Type} [DecidableEq κ] (m : List (κ × Nat)) (h : κ) :
    lookupCount (bump m h) h = lookupCount m h + 1 := by
  unfold bump
  cases hany : m.any (fun p => decide (p.1 = h))
  · rw [if_neg (by simp)]
    exact lookup_append_one_same m h hany
  · rw [if_pos rfl]
    exact lookup_map_inc_same m h hany

lemma bump_lookup_ne {κ : Type} [DecidableEq κ] (m : List (κ × Nat)) (h k : κ)
    (hne : k ≠ h) : lookupCount (bump m h) k = lookupCount m k := by
  unfold bump
  cases hany : m.any (fun p => decide (p.1 = h))
  · rw [if_neg (by simp)]
    exact lookup_append_one_ne m h k hne
  · rw [if_pos rfl]
    exact lookup_map_inc m h k hne

lemma recStep_lookup (cell : Rat → Rat → Nat) (acc : List (Nat × Nat))
    (r : ShkRec) (h : Nat) :
    lookupCount (recStep cell acc r) h =
      lookupCount acc h + (if shkKeep cell h r then 1 else 0) := by
  unfold recStep shkKeep
  obtain ⟨la?, lo?⟩ := r
  cases la? with
  | none => simp
  | some la =>
    cases lo? with
    | none => simp
    | some lo =>
      dsimp only
      by_cases hr : -90 ≤ la ∧ la ≤ 90 ∧ -180 ≤ lo ∧ lo ≤ 180
      · rw [if_pos hr]
        obtain ⟨h1, h2, h3, h4⟩ := hr
        rw [decide_eq_true h1, decide_eq_true h2, decide_eq_true h3,
          decide_eq_true h4]
        simp only [Bool.true_and]
        cases hch : cell la lo == h
        · have hne : h ≠ cell la lo := by
            intro hc
            rw [hc] at hch
            simp at hch
          rw [bump_lookup_ne acc (cell la lo) h hne]
          simp
        · have heq : cell la lo = h := by simpa using hch
          rw [heq, bump_lookup_same]
          simp
      · rw [if_neg hr]
        cases hk : (decide (-90 ≤ la) && decide (la ≤ 90) && decide (-180 ≤ lo) &&
            decide (lo ≤ 180) && (cell la lo == h))
        · simp
        · exfalso
          simp only [Bool.and_eq_true, decide_eq_true_eq] at hk
          exact hr ⟨hk.1.1.1.1, hk.1.1.1.2, hk.1.1.2, hk.1.2⟩

lemma fold_recStep_lookup (cell : Rat → Rat → Nat) (rs : List ShkRec) :
    ∀ (acc : List (Nat × Nat)) (h : Nat),
      lookupCount (rs.foldl (recStep cell) acc) h =
        lookupCount acc h + (rs.filter (shkKeep cell h)).length := by
  induction rs with
  | nil => intro acc h; simp
  | cons r t ih =>
    intro acc h
    rw [List.foldl_cons, ih, recStep_lookup]
    rw [List.filter_cons]
    cases hk : shkKeep cell h r <;> simp [hk] <;> omega

/-- C4: FALSE as stated for the raster path.  `export_csv` never
validates coordinate ranges: a grid point at latitude 200 (outside
[-90, 90]) with a non-null value is kept and counts toward its cell's
sample size (n = 1 here), contradicting "never counts toward any cell's
sample size". -/
theorem C4_drop_invalid_counterexample :
    export_csv_agg (fun _ _ => 3) [200] [0] [[some 1]] = [⟨3, 1, 1, 1, none, 1⟩] ∧
    ¬ ((200 : Rat) ≤ 90) := by
  constructor
  · simp [export_csv_agg, gridRows, dropnaRows, groupKeys, cellValues, mkAggRow,
      listMean, listMin, listMax, sampleVar, List.insertionSort,
      List.orderedInsert, List.dedup, List.filter, List.filterMap]
  · norm_num

/-- C4 (amended): (1) in the raster path (`export_csv`) every record with
a null/NaN primary value is dropped before cell assignment and never
counts toward any cell's sample size — a cell's count is exactly the
number of grid points with a present value mapping to it (coordinates
are not range-checked there); (2) in the point-occurrence path
(`fetch_one_species_one_day`) a record with a missing coordinate or a
coordinate outside [-90, 90] x [-180, 180] never counts — a cell's count
is exactly the number of records passing the coordinate filter and
mapping to it; (3) the 2x2 grid with values [1.0, 2.0, 3.0, NaN] in one
cell aggregates to count 3, mean 2.0, min 1.0, max 3.0. -/
theorem C4_drop_invalid_amended :
    (∀ (cell : Rat → Rat → Nat) (lats lons : List Rat)
        (g : List (List (Option Rat))),
      ∀ row ∈ export_csv_agg cell lats lons g,
        row.n = ((gridRows lats lons g).filter
          (fun r => r.2.2.isSome && (cell r.1 r.2.1 == row.h3))).length) ∧
    (∀ (cell : Rat → Rat → Nat) (rs : List ShkRec) (h : Nat),
      lookupCount (rs.foldl (recStep cell) []) h =
        (rs.filter (shkKeep cell h)).length) ∧
    export_csv_agg (fun _ _ => 7) [0, 1] [0, 1] [[some 1, some 2], [some 3, none]] =
      [⟨7, 2, 1, 3, some 1, 3⟩] := by
  refine ⟨?_, ?_, ?_⟩
  · intro cell lats lons g row hrow
    exact export_count hrow
  · intro cell rs h
    rw [fold_recStep_lookup]
    simp [lookupCount]
  · simp [export_csv_agg, gridRows, dropnaRows, groupKeys, cellValues, mkAggRow,
      listMean, listMin, listMax, sampleVar, List.insertionSort,
      List.orderedInsert, List.dedup, List.filter, List.filterMap]
    norm_num

/-- Witness for `C4_drop_invalid_amended`: its membership hypothesis
discharged on the concrete 2x2 grid. -/
theorem C4_drop_invalid_amended_witness :
    (⟨7, 2, 1, 3, some 1, 3⟩ : AggRow).n =
      ((gridRows [0, 1] [0, 1] [[some 1, some 2], [some 3, none]]).filter
        (fun r => r.2.2.isSome && ((fun _ _ => 7) r.1 r.2.1 ==
          (⟨7, 2, 1, 3, some 1, 3⟩ : AggRow).h3))).length := by
  apply C4_drop_invalid_amended.1 (fun _ _ => 7) [0, 1] [0, 1]
    [[some 1, some 2], [some 3, none]]
  rw [C4_drop_invalid_amended.2.2]
  exact List.mem_singleton_self _

lemma gridRows_filled (lats lons : List Rat) (g : List (List MaVal)) :
    gridRows lats lons (sstFilledGrid g) =
      (gridRowsMa lats lons g).map (fun r => (r.1, r.2.1, maFilledNaN r.2.2)) := by
  unfold gridRows gridRowsMa sstFilledGrid
  rw [List.zip_map_right]
  rw [List.flatMap_map, List.map_flatMap]
  congr 1
  funext lr
  obtain ⟨la, row⟩ := lr
  dsimp only [Function.comp, Prod.map]
  rw [List.zip_map_right, List.map_map, List.map_map]
  rfl

/-- C6: FALSE for the SWOT reader.  `safe_var` fills masked values with
NaN and then immediately `nan_to_num`s them to 0.0; since every array is
`nan_to_num`-ed before the `isfinite` mask, a masked `ssh_karin` sample
survives as the value 0.0 in the per-point rows (here (10, 20, 0)). -/
theorem C6_masked_counterexample :
    safe_var [MaVal.masked] = [0] ∧
    swot_points [MaVal.val 10] [MaVal.val 20] [MaVal.masked] = [(10, 20, 0)] := by
  constructor <;> rfl

/-- C6 (amended): in `export_csv` (sst/plancton) masked grid points
become NaN (`none`) and are dropped before aggregation — a cell's count
is exactly its unmasked matching points, so a masked point never
contributes any value; in SWOT's `safe_var` a masked value is instead
replaced by 0.0 in place and does contribute. -/
theorem C6_masked_amended :
    (∀ (cell : Rat → Rat → Nat) (lats lons : List Rat) (g : List (List MaVal)),
      ∀ row ∈ export_csv_agg cell lats lons (sstFilledGrid g),
        row.n = ((gridRowsMa lats lons g).filter
          (fun r => (maFilledNaN r.2.2).isSome &&
            (cell r.1 r.2.1 == row.h3))).length) ∧
    (∀ (pre post : List MaVal),
      safe_var (pre ++ MaVal.masked :: post) =
        safe_var pre ++ (0 : Rat) :: safe_var post) := by
  constructor
  · intro cell lats lons g row hrow
    rw [export_count hrow, gridRows_filled, List.filter_map, List.length_map]
    rfl
  · intro pre post
    unfold safe_var
    rw [List.map_append, List.map_cons]
    rfl

/-- Witness for `C6_masked_amended` on a grid with one masked and one
present point in the same cell: the masked point is not counted. -/
theorem C6_masked_amended_witness :
    (⟨9, 4, 4, 4, none, 1⟩ : AggRow).n =
      ((gridRowsMa [0] [0, 1] [[MaVal.val 4, MaVal.masked]]).filter
        (fun r => (maFilledNaN r.2.2).isSome && ((fun _ _ => 9) r.1 r.2.1 ==
          (⟨9, 4, 4, 4, none, 1⟩ : AggRow).h3))).length := by
  apply C6_masked_amended.1 (fun _ _ => 9) [0] [0, 1] [[MaVal.val 4, MaVal.masked]]
  have hagg : export_csv_agg (fun _ _ => 9) [0] [0, 1]
      (sstFilledGrid [[MaVal.val 4, MaVal.masked]]) = [⟨9, 4, 4, 4, none, 1⟩] := by
    simp [export_csv_agg, sstFilledGrid, maFilledNaN, gridRows, dropnaRows,
      groupKeys, cellValues, mkAggRow, listMean, listMin, listMax, sampleVar,
      List.insertionSort, List.orderedInsert, List.dedup, List.filter,
      List.filterMap]
  rw [hagg]
  exact List.mem_singleton_self _

/-! ### Claim C5: bounded retry with linear backoff, failure is non-fatal -/

/-- C5: `_req_get` makes at most `MAX_RETRIES = 3` attempts; after every
failed attempt k (non-200 response or transport error) it sleeps
`RETRY_SLEEP * k`; after exhausting the retries it returns `None` (the
sleeps performed are RETRY_SLEEP*1, *2, *3) instead of raising; a
success at attempt j returns that response after sleeps
RETRY_SLEEP*1..*(j-1); and the pagination caller treats a failed
request as "no data": `fetch_one_species_one_day` /
`fetch_one_species_period` on a first-page failure return the empty
count dict and proceed (no exception is modelled because none escapes). -/
theorem C5_req_get_retry (outcomes : Nat → Attempt (PageResp ShkRec)) :
    ((∀ k, 1 ≤ k → k ≤ MAX_RETRIES → (outcomes k).isOk = false) →
      req_get outcomes =
        (none, [RETRY_SLEEP * 1, RETRY_SLEEP * 2, RETRY_SLEEP * 3])) ∧
    (∀ resp, outcomes 1 = Attempt.ok resp → req_get outcomes = (some resp, [])) ∧
    (∀ resp, (outcomes 1).isOk = false → outcomes 2 = Attempt.ok resp →
      req_get outcomes = (some resp, [RETRY_SLEEP * 1])) ∧
    (∀ resp, (outcomes 1).isOk = false → (outcomes 2).isOk = false →
      outcomes 3 = Attempt.ok resp →
      req_get outcomes = (some resp, [RETRY_SLEEP * 1, RETRY_SLEEP * 2])) ∧
    (∀ (cell : Rat → Rat → Nat) (rest : List (Option (PageResp ShkRec))),
      fetch_one_species_one_day cell (none :: rest) = []) ∧
    (∀ (cell : Rat → Rat → Nat) (rest : List (Option (PageResp ShkRecP))),
      fetch_one_species_period cell (none :: rest) = []) := by
  refine ⟨?_, ?_, ?_, ?_, ?_, ?_⟩
  · intro hfail
    have h1 := hfail 1 (by omega) (by simp [MAX_RETRIES])
    have h2 := hfail 2 (by omega) (by simp [MAX_RETRIES])
    have h3 := hfail 3 (by omega) (by simp [MAX_RETRIES])
    unfold req_get MAX_RETRIES
    cases o1 : outcomes 1 with
    | ok r => rw [o1] at h1; simp [Attempt.isOk] at h1
    | httpErr c =>
      cases o2 : outcomes 2 with
      | ok r => rw [o2] at h2; simp [Attempt.isOk] at h2
      | httpErr c2 =>
        cases o3 : outcomes 3 with
        | ok r => rw [o3] at h3; simp [Attempt.isOk] at h3
        | httpErr c3 => norm_num [req_get_go, o1, o2, o3]
        | netErr => norm_num [req_get_go, o1, o2, o3]
      | netErr =>
        cases o3 : outcomes 3 with
        | ok r => rw [o3] at h3; simp [Attempt.isOk] at h3
        | httpErr c3 => norm_num [req_get_go, o1, o2, o3]
        | netErr => norm_num [req_get_go, o1, o2, o3]
    | netErr =>
      cases o2 : outcomes 2 with
      | ok r => rw [o2] at h2; simp [Attempt.isOk] at h2
      | httpErr c2 =>
        cases o3 : outcomes 3 with
        | ok r => rw [o3] at h3; simp [Attempt.isOk] at h3
        | httpErr c3 => norm_num [req_get_go, o1, o2, o3]
        | netErr => norm_num [req_get_go, o1, o2, o3]
      | netErr =>
        cases o3 : outcomes 3 with
        | ok r => rw [o3] at h3; simp [Attempt.isOk] at h3
        | httpErr c3 => norm_num [req_get_go, o1, o2, o3]
        | netErr => norm_num [req_get_go, o1, o2, o3]
  · intro resp h1
    unfold req_get MAX_RETRIES
    norm_num [req_get_go, h1]
  · intro resp h1 h2
    unfold req_get MAX_RETRIES
    cases o1 : outcomes 1 with
    | ok r => rw [o1] at h1; simp [Attempt.isOk] at h1
    | httpErr c => norm_num [req_get_go, o1, h2]
    | netErr => norm_num [req_get_go, o1, h2]
  · intro resp h1 h2 h3
    unfold req_get MAX_RETRIES
    cases o1 : outcomes 1 with
    | ok r => rw [o1] at h1; simp [Attempt.isOk] at h1
    | httpErr c =>
      cases o2 : outcomes 2 with
      | ok r => rw [o2] at h2; simp [Attempt.isOk] at h2
      | httpErr c2 => norm_num [req_get_go, o1, o2, h3]
      | netErr => norm_num [req_get_go, o1, o2, h3]
    | netErr =>
      cases o2 : outcomes 2 with
      | ok r => rw [o2] at h2; simp [Attempt.isOk] at h2
      | httpErr c2 => norm_num [req_get_go, o1, o2, h3]
      | netErr => norm_num [req_get_go, o1, o2, h3]
  · intro cell rest
    rfl
  · intro cell rest
    rfl

/-- Witness for `C5_req_get_retry`: all three attempts fail with a
transport error; `_req_get` returns `None` after the three linear
backoff sleeps. -/
theorem C5_req_get_retry_witness :
    req_get (fun _ => (Attempt.netErr : Attempt (PageResp ShkRec))) =
      (none, [RETRY_SLEEP * 1, RETRY_SLEEP * 2, RETRY_SLEEP * 3]) :=
  (C5_req_get_retry (fun _ => Attempt.netErr)).1 (fun _ _ _ => rfl)

/-! ### Claims C8, C9: minimum-count filter, mid-pagination failure -/

lemma bump_pos {κ : Type} [DecidableEq κ] {m : List (κ × Nat)}
    (hm : ∀ p ∈ m, 1 ≤ p.2) (h : κ) : ∀ p ∈ bump m h, 1 ≤ p.2 := by
  intro p hp
  unfold bump at hp
  split_ifs at hp with hany
  · rw [List.mem_map] at hp
    obtain ⟨q, hq, rfl⟩ := hp
    by_cases hqh : q.1 = h
    · rw [if_pos hqh]
      omega
    · rw [if_neg hqh]
      exact hm q hq
  · rw [List.mem_append] at hp
    rcases hp with hp | hp
    · exact hm p hp
    · rw [List.mem_singleton] at hp
      subst hp
      exact Nat.le_refl 1

lemma recStep_pos {cell : Rat → Rat → Nat} {acc : List (Nat × Nat)}
    (hm : ∀ p ∈ acc, 1 ≤ p.2) (r : ShkRec) :
    ∀ p ∈ recStep cell acc r, 1 ≤ p.2 := by
  unfold recStep
  obtain ⟨la?, lo?⟩ := r
  cases la? with
  | none => exact hm
  | some la =>
    cases lo? with
    | none => exact hm
    | some lo =>
      dsimp only
      split_ifs with hr
      · exact bump_pos hm (cell la lo)
      · exact hm

lemma foldl_recStep_pos (cell : Rat → Rat → Nat) (rs : List ShkRec) :
    ∀ (acc : List (Nat × Nat)), (∀ p ∈ acc, 1 ≤ p.2) →
      ∀ p ∈ rs.foldl (recStep cell) acc, 1 ≤ p.2 := by
  induction rs with
  | nil => intro acc hm; exact hm
  | cons r t ih =>
    intro acc hm
    rw [List.foldl_cons]
    exact ih (recStep cell acc r) (recStep_pos hm r)

lemma paginate_recStep_pos (cell : Rat → Rat → Nat) :
    ∀ (pages : List (Option (PageResp ShkRec))) (offset : Nat)
      (tot : Option Nat) (acc : List (Nat × Nat)),
      (∀ p ∈ acc, 1 ≤ p.2) →
      ∀ p ∈ obisPaginate (recStep cell) pages offset tot acc, 1 ≤ p.2 := by
  intro pages
  induction pages with
  | nil => intro offset tot acc hm; exact hm
  | cons pg rest ih =>
    intro offset tot acc hm
    cases pg with
    | none => exact hm
    | some p =>
      unfold obisPaginate
      dsimp only
      split_ifs with hres
      · exact hm
      · have hacc2 := foldl_recStep_pos cell p.results acc hm
        cases htot : (match p.total with | some t => some t | none => tot) with
        | none => exact ih (offset + PAGE_SIZE) none _ hacc2
        | some t =>
          dsimp only
          split_ifs with hoff
          · exact hacc2
          · exact ih (offset + PAGE_SIZE) (some t) _ hacc2

lemma recStepP_pos {cell : Rat → Rat → Nat}
    {acc : List ((String × Nat) × Nat)} (hm : ∀ p ∈ acc, 1 ≤ p.2)
    (r : ShkRecP) : ∀ p ∈ recStepP cell acc r, 1 ≤ p.2 := by
  unfold recStepP
  obtain ⟨la?, lo?, e1, e2, e3⟩ := r
  cases la? with
  | none => exact hm
  | some la =>
    cases lo? with
    | none => exact hm
    | some lo =>
      dsimp only
      cases pyOrStr (pyOrStr e1 e2) e3 with
      | none => exact hm
      | some ev =>
        dsimp only
        split_ifs with h1 h2
        · exact hm
        · exact bump_pos hm _
        · exact hm

lemma foldl_recStepP_pos (cell : Rat → Rat → Nat) (rs : List ShkRecP) :
    ∀ (acc : List ((String × Nat) × Nat)), (∀ p ∈ acc, 1 ≤ p.2) →
      ∀ p ∈ rs.foldl (recStepP cell) acc, 1 ≤ p.2 := by
  induction rs with
  | nil => intro acc hm; exact hm
  | cons r t ih =>
    intro acc hm
    rw [List.foldl_cons]
    exact ih (recStepP cell acc r) (recStepP_pos hm r)

lemma paginate_recStepP_pos (cell : Rat → Rat → Nat) :
    ∀ (pages : List (Option (PageResp ShkRecP))) (offset : Nat)
      (tot : Option Nat) (acc : List ((String × Nat) × Nat)),
      (∀ p ∈ acc, 1 ≤ p.2) →
      ∀ p ∈ obisPaginate (recStepP cell) pages offset tot acc, 1 ≤ p.2 := by
  intro pages
  induction pages with
  | nil => intro offset tot acc hm; exact hm
  | cons pg rest ih =>
    intro offset tot acc hm
    cases pg with
    | none => exact hm
    | some p =>
      unfold obisPaginate
      dsimp only
      split_ifs with hres
      · exact hm
      · have hacc2 := foldl_recStepP_pos cell p.results acc hm
        cases htot : (match p.total with | some t => some t | none => tot) with
        | none => exact ih (offset + PAGE_SIZE) none _ hacc2
        | some t =>
          dsimp only
          split_ifs with hoff
          · exact hacc2
          · exact ih (offset + PAGE_SIZE) (some t) _ hacc2

lemma minFilter_mem {κ : Type} [DecidableEq κ] (m : List (κ × Nat))
    (hm : ∀ p ∈ m, 1 ≤ p.2) (t : Nat) (p : κ × Nat) :
    p ∈ minFilter t m ↔ (p ∈ m ∧ t ≤ p.2) := by
  unfold minFilter
  split_ifs with hc
  · rw [List.mem_filter]
    simp
  · constructor
    · intro hp
      refine ⟨hp, ?_⟩
      have h1 := hm p hp
      rcases not_and_or.mp hc with hc1 | hc2
      · omega
      · rw [not_not] at hc2
        rw [hc2] at hp
        exact absurd hp (List.not_mem_nil p)
    · exact fun hp => hp.1

/-- C8: for every aggregated count result of the sharks pipeline — the
per-cell counts of `fetch_one_species_one_day` and the (date, cell)
counts of `fetch_one_species_period` — membership in the minimum-count
filter's output is exactly "the group is in the unfiltered result with
its identical (key, count) statistics and its count reaches the
threshold"; hence groups below threshold are absent, retained groups
keep their statistics unchanged, and raising the threshold only removes
entries (t1 ≤ t2 makes the t2 output a subset of the t1 output). -/
theorem C8_min_count_filter (cell : Rat → Rat → Nat)
    (pages : List (Option (PageResp ShkRec)))
    (pagesP : List (Option (PageResp ShkRecP))) :
    (∀ t p, p ∈ minFilter t (obisPaginate (recStep cell) pages 0 none []) ↔
      (p ∈ obisPaginate (recStep cell) pages 0 none [] ∧ t ≤ p.2)) ∧
    (∀ t1 t2, t1 ≤ t2 → ∀ p,
      p ∈ minFilter t2 (obisPaginate (recStep cell) pages 0 none []) →
        p ∈ minFilter t1 (obisPaginate (recStep cell) pages 0 none [])) ∧
    (∀ t p, p ∈ minFilter t (obisPaginate (recStepP cell) pagesP 0 none []) ↔
      (p ∈ obisPaginate (recStepP cell) pagesP 0 none [] ∧ t ≤ p.2)) ∧
    (∀ t1 t2, t1 ≤ t2 → ∀ p,
      p ∈ minFilter t2 (obisPaginate (recStepP cell) pagesP 0 none []) →
        p ∈ minFilter t1 (obisPaginate (recStepP cell) pagesP 0 none [])) := by
  have hpos : ∀ p ∈ obisPaginate (recStep cell) pages 0 none [], 1 ≤ p.2 :=
    paginate_recStep_pos cell pages 0 none []
      (fun p hp => absurd hp (List.not_mem_nil p))
  have hposP : ∀ p ∈ obisPaginate (recStepP cell) pagesP 0 none [], 1 ≤ p.2 :=
    paginate_recStepP_pos cell pagesP 0 none []
      (fun p hp => absurd hp (List.not_mem_nil p))
  refine ⟨minFilter_mem _ hpos, ?_, minFilter_mem _ hposP, ?_⟩
  · intro t1 t2 h12 p hp
    rw [minFilter_mem _ hpos] at hp ⊢
    exact ⟨hp.1, by omega⟩
  · intro t1 t2 h12 p hp
    rw [minFilter_mem _ hposP] at hp ⊢
    exact ⟨hp.1, by omega⟩

/-- Witness for `C8_min_count_filter`: a period page with three
identical valid records dated 2020-01-02 gives the (date, cell) count 3;
it passes the threshold-2 filter, and by the subset direction (1 ≤ 2) it
is also in the threshold-1 output. -/
theorem C8_min_count_filter_witness :
    (("2020-01-02", 42), 3) ∈ minFilter 1 (obisPaginate
      (recStepP (fun _ _ => 42))
      [some ⟨[⟨some 0, some 0, some "2020-01-02", none, none⟩,
              ⟨some 0, some 0, some "2020-01-02", none, none⟩,
              ⟨some 0, some 0, some "2020-01-02", none, none⟩], some 3⟩]
      0 none []) :=
  (C8_min_count_filter (fun _ _ => 42) []
    [some ⟨[⟨some 0, some 0, some "2020-01-02", none, none⟩,
            ⟨some 0, some 0, some "2020-01-02", none, none⟩,
            ⟨some 0, some 0, some "2020-01-02", none, none⟩], some 3⟩]).2.2.2
    1 2 (by omega) (("2020-01-02", 42), 3) (by decide)

/-- C9: when `_req_get` fails after its retries mid-pagination (the page
outcome is `None` at some offset), both `fetch_one_species_one_day` and
`fetch_one_species_period` break out of the page loop and return exactly
the counts accumulated from the pages already fetched (first two
conjuncts, for any loop state).  Concretely (third conjunct): a first
page with one record and server total 5000 followed by a failure at
offset 1000 > 0 yields the nonempty count [(42, 1)] — silently truncated
partial data, not no data — and (fourth conjunct) a nonempty period
result that does not already exist on disk is written by
`save_period_csv`. -/
theorem C9_partial_pagination (cell : Rat → Rat → Nat) :
    (∀ (rest : List (Option (PageResp ShkRec))) (offset : Nat)
        (tot : Option Nat) (acc : List (Nat × Nat)),
      obisPaginate (recStep cell) (none :: rest) offset tot acc = acc) ∧
    (∀ (rest : List (Option (PageResp ShkRecP))) (offset : Nat)
        (tot : Option Nat) (acc : List ((String × Nat) × Nat)),
      obisPaginate (recStepP cell) (none :: rest) offset tot acc = acc) ∧
    fetch_one_species_one_day (fun _ _ => 42)
      [some ⟨[⟨some 0, some 0⟩], some 5000⟩, none] = [(42, 1)] ∧
    SharkEv.saveWrite ∈ sharks_main_trace 5 false false := by
  exact ⟨fun _ _ _ _ => rfl, fun _ _ _ _ => rfl, by decide, by decide⟩

/-! ### Claim C10: sticky singleton authentication -/

lemma authenticate_authd {st : AuthState} {o : LoginOutcome}
    (hst : st.authenticated = true) : authenticate st o = (true, st, false) := by
  unfold authenticate
  rw [if_pos hst]

lemma authenticate_failedSt {st : AuthState} {o : LoginOutcome}
    (hna : st.authenticated = false) (hf : st.authFailed = true) :
    authenticate st o = (false, st, false) := by
  unfold authenticate
  rw [if_neg (by rw [hna]; exact Bool.false_ne_true), if_pos hf]

lemma authRun_settled : ∀ (os : List LoginOutcome) (st : AuthState),
    (st.authenticated = true ∨ st.authFailed = true) →
    (authRun st os).2 = 0 ∧ (authRun st os).1 = st := by
  intro os
  induction os with
  | nil => exact fun st _ => ⟨rfl, rfl⟩
  | cons o t ih =>
    intro st hst
    have hauth : (authenticate st o).2.1 = st ∧ (authenticate st o).2.2 = false := by
      rcases hst with hst | hst
      · rw [authenticate_authd hst]
        exact ⟨rfl, rfl⟩
      · by_cases ha : st.authenticated = true
        · rw [authenticate_authd ha]
          exact ⟨rfl, rfl⟩
        · rw [authenticate_failedSt (by simpa using ha) hst]
          exact ⟨rfl, rfl⟩
    have iht := ih st hst
    unfold authRun
    dsimp only
    rw [hauth.1, hauth.2]
    simp [iht.1, iht.2]

/-- C10: `authenticate` is sticky in both directions.  With
`_authenticated` set, every call returns True with no remote contact and
no state change; with `_auth_failed` set (and not authenticated), every
call returns False with no remote contact; `authenticate` never clears
`_auth_failed` (only `reset_authentication` does, clearing both flags);
and over any call sequence from the initial state the remote login is
contacted at most once. -/
theorem C10_authenticate_sticky :
    (∀ (st : AuthState) (o : LoginOutcome), st.authenticated = true →
      authenticate st o = (true, st, false)) ∧
    (∀ (st : AuthState) (o : LoginOutcome), st.authenticated = false →
      st.authFailed = true → authenticate st o = (false, st, false)) ∧
    (∀ (st : AuthState) (o : LoginOutcome), st.authFailed = true →
      ((authenticate st o).2.1).authFailed = true) ∧
    (∀ st : AuthState, reset_authentication st = ⟨false, false⟩) ∧
    (∀ os : List LoginOutcome, (authRun ⟨false, false⟩ os).2 ≤ 1) := by
  refine ⟨fun st o hst => authenticate_authd hst,
    fun st o hna hst => authenticate_failedSt hna hst, ?_, fun _ => rfl, ?_⟩
  · intro st o hst
    unfold authenticate
    by_cases ha : st.authenticated = true
    · rw [if_pos ha]
      exact hst
    · rw [if_neg ha, if_pos hst]
      exact hst
  · intro os
    cases os with
    | nil => exact Nat.zero_le 1
    | cons o t =>
      unfold authRun
      dsimp only
      have h1 : ((authenticate ⟨false, false⟩ o).2.1).authenticated = true ∨
          ((authenticate ⟨false, false⟩ o).2.1).authFailed = true := by
        cases o <;> simp [authenticate]
      have hs := authRun_settled t _ h1
      rw [hs.1]
      split_ifs <;> simp

/-- Witness for `C10_authenticate_sticky`: an authenticated state answers
True without contacting the remote service. -/
theorem C10_authenticate_sticky_witness :
    authenticate ⟨true, false⟩ LoginOutcome.failure = (true, ⟨true, false⟩, false) :=
  C10_authenticate_sticky.1 ⟨true, false⟩ LoginOutcome.failure rfl

/-! ### Claim C7: date-resolver strategy order and sentinel fallback -/

lemma tryAttrs_cons (ds : String → Option String) (a : String)
    (rest : List String) :
    tryAttrs ds (a :: rest) =
      (match ds a with
       | none => tryAttrs ds rest
       | some s =>
         match parseAttrValue s with
         | some out => some out
         | none => tryAttrs ds rest) := rfl

lemma tryAttrs_append (ds : String → Option String) (l1 l2 : List String) :
    tryAttrs ds (l1 ++ l2) =
      (match tryAttrs ds l1 with
       | some d => some d
       | none => tryAttrs ds l2) := by
  induction l1 with
  | nil => rfl
  | cons a t ih =>
    rw [List.cons_append, tryAttrs_cons, tryAttrs_cons]
    cases ds a with
    | none =>
      dsimp only
      exact ih
    | some s =>
      dsimp only
      cases parseAttrValue s with
      | none =>
        dsimp only
        exact ih
      | some out => rfl

/-- C7: `_infer_date_string` tries its strategies in exactly the fixed
priority order — (1) the time-range-start attributes
(`time_coverage_start`, `start_time`), parsed as a full timestamp or an
8-digit `YYYYMMDD`; (2) the time-range-end attributes
(`time_coverage_end`, `end_time`) under the same parsing rule; (3) the
`A` + year + day-of-year pattern of the filename, converted by
day-of-year arithmetic; (4) the `date_created` timestamp — and when
every strategy fails it returns the sentinel string
"data_nao_encontrada" (as a normal value, `Except.ok`, not an
exception), so `export_csv` proceeds to aggregate and store the unit
with that placeholder date. -/
theorem C7_infer_date_priority (ds : String → Option String) (fname : String) :
    (infer_date_string ds fname =
      (match strat_time_range_start ds with
       | some d => Except.ok d
       | none =>
         match strat_time_range_end ds with
         | some d => Except.ok d
         | none =>
           match strat_fname fname with
           | some r => r
           | none =>
             match strat_created ds with
             | some d => Except.ok d
             | none => Except.ok "data_nao_encontrada")) ∧
    (strat_time_range_start ds = none → strat_time_range_end ds = none →
      strat_fname fname = none → strat_created ds = none →
      infer_date_string ds fname = Except.ok "data_nao_encontrada") := by
  have hmain : infer_date_string ds fname =
      (match strat_time_range_start ds with
       | some d => Except.ok d
       | none =>
         match strat_time_range_end ds with
         | some d => Except.ok d
         | none =>
           match strat_fname fname with
           | some r => r
           | none =>
             match strat_created ds with
             | some d => Except.ok d
             | none => Except.ok "data_nao_encontrada") := by
    unfold infer_date_string strat_time_range_start strat_time_range_end
    rw [show ["time_coverage_start", "start_time", "time_coverage_end", "end_time"] =
      ["time_coverage_start", "start_time"] ++ ["time_coverage_end", "end_time"]
      from rfl]
    rw [tryAttrs_append]
    cases tryAttrs ds ["time_coverage_start", "start_time"] with
    | some d => rfl
    | none => rfl
  refine ⟨hmain, ?_⟩
  intro h1 h2 h3 h4
  rw [hmain, h1, h2, h3, h4]

/-- Witness for `C7_infer_date_priority`: a dataset with no usable
attributes and a filename without the pattern resolves to the sentinel. -/
theorem C7_infer_date_priority_witness :
    infer_date_string (fun _ => none) "file.nc" = Except.ok "data_nao_encontrada" :=
  (C7_infer_date_priority (fun _ => none) "file.nc").2 rfl rfl rfl rfl

/-! ### Claim C3: the existence check does not gate network I/O -/

lemma sdm_step_exists (env : SstEnv) (acc : List PipeEv × Nat) (f : Nat)
    (hc : env.csvExists f = true) :
    sdmStep env acc f = (acc.1 ++ [PipeEv.existsCheck f], acc.2) := by
  unfold sdmStep
  rw [if_pos hc]

lemma sdm_step_missing (env : SstEnv) (acc : List PipeEv × Nat) (f : Nat)
    (hc : ¬ env.csvExists f = true) :
    sdmStep env acc f =
      (acc.1 ++ [PipeEv.existsCheck f, PipeEv.exportCsv f], acc.2 + 1) := by
  unfold sdmStep
  rw [if_neg hc]

lemma sdm_foldl_shape (env : SstEnv) :
    ∀ (fs : List Nat) (acc : List PipeEv × Nat),
      ∃ suf, (fs.foldl (sdmStep env) acc).1 = acc.1 ++ suf := by
  intro fs
  induction fs with
  | nil => exact fun acc => ⟨[], by simp⟩
  | cons f t ih =>
    intro acc
    rw [List.foldl_cons]
    by_cases hc : env.csvExists f = true
    · obtain ⟨suf, hsuf⟩ := ih (acc.1 ++ [PipeEv.existsCheck f], acc.2)
      refine ⟨[PipeEv.existsCheck f] ++ suf, ?_⟩
      rw [sdm_step_exists env acc f hc, hsuf]
      dsimp only
      rw [List.append_assoc]
    · obtain ⟨suf, hsuf⟩ :=
        ih (acc.1 ++ [PipeEv.existsCheck f, PipeEv.exportCsv f], acc.2 + 1)
      refine ⟨[PipeEv.existsCheck f, PipeEv.exportCsv f] ++ suf, ?_⟩
      rw [sdm_step_missing env acc f hc, hsuf]
      dsimp only
      rw [List.append_assoc]

lemma sdm_foldl_no_export (env : SstEnv) (f : Nat)
    (hex : env.csvExists f = true) :
    ∀ (fs : List Nat) (acc : List PipeEv × Nat),
      PipeEv.exportCsv f ∉ acc.1 →
      PipeEv.exportCsv f ∉ (fs.foldl (sdmStep env) acc).1 := by
  intro fs
  induction fs with
  | nil => exact fun acc h => h
  | cons g t ih =>
    intro acc hacc
    rw [List.foldl_cons]
    apply ih
    by_cases hc : env.csvExists g = true
    · rw [sdm_step_exists env acc g hc]
      dsimp only
      intro hmem
      rcases List.mem_append.mp hmem with hm | hm
      · exact hacc hm
      · simp at hm
    · rw [sdm_step_missing env acc g hc]
      dsimp only
      intro hmem
      rcases List.mem_append.mp hmem with hm | hm
      · exact hacc hm
      · have hgf : g ≠ f := by
          intro hgf
          rw [hgf, hex] at hc
          exact hc rfl
        simp at hm
        exact hgf hm.symm

/-- C3: FALSE as stated.  For a month whose single granule's output CSV
already exists, `search_and_download_month` still performs the search
and the download — both strictly before the existence check is first
consulted — and only the per-file CSV export is skipped. -/
theorem C3_exists_gate_counterexample :
    (search_and_download_month ⟨[1], fun _ => true⟩).1 =
      [PipeEv.search, PipeEv.download, PipeEv.existsCheck 1] ∧
    (fun (_ : Nat) => true) 1 = true ∧
    PipeEv.search ∈ (search_and_download_month ⟨[1], fun _ => true⟩).1 ∧
    PipeEv.download ∈ (search_and_download_month ⟨[1], fun _ => true⟩).1 := by
  refine ⟨rfl, rfl, ?_, ?_⟩ <;> decide

/-- C3 (amended): the existence check gates only the CSV
generation/write step, not the network I/O.  In
`search_and_download_month` a file whose CSV exists is never exported,
but the search is always the first action and the download still
happens whenever the search returns results — regardless of which
outputs exist; in the sharks driver the per-species period fetches all
happen before the existence check, which only suppresses the final CSV
write. -/
theorem C3_exists_gate_amended :
    (∀ (env : SstEnv) (f : Nat), env.csvExists f = true →
      PipeEv.exportCsv f ∉ (search_and_download_month env).1) ∧
    (∀ env : SstEnv, (search_and_download_month env).1.head? = some PipeEv.search) ∧
    (∀ env : SstEnv, ¬ env.searchResults.isEmpty = true →
      PipeEv.download ∈ (search_and_download_month env).1) ∧
    (∀ existsAlready, existsAlready = true →
      SharkEv.saveWrite ∉ save_period_csv existsAlready) ∧
    (∀ (n : Nat) (ex re : Bool), (sharks_main_trace n ex re).take n =
      (List.range n).map SharkEv.fetchPeriod) := by
  refine ⟨?_, ?_, ?_, ?_, ?_⟩
  · intro env f hex
    unfold search_and_download_month
    split_ifs with hres
    · intro hmem
      simp at hmem
    · exact sdm_foldl_no_export env f hex env.searchResults
        ([PipeEv.search, PipeEv.download], 0) (by simp)
  · intro env
    unfold search_and_download_month
    split_ifs with hres
    · rfl
    · obtain ⟨suf, hsuf⟩ := sdm_foldl_shape env env.searchResults
        ([PipeEv.search, PipeEv.download], 0)
      dsimp only
      rw [hsuf]
      rfl
  · intro env hres
    unfold search_and_download_month
    rw [if_neg hres]
    obtain ⟨suf, hsuf⟩ := sdm_foldl_shape env env.searchResults
      ([PipeEv.search, PipeEv.download], 0)
    dsimp only
    rw [hsuf]
    exact List.mem_append_left _ (by simp)
  · intro ex hex
    subst hex
    decide
  · intro n ex re
    unfold sharks_main_trace
    dsimp only
    split_ifs with hre
    · simp
    · exact List.take_left' (by simp)

/-- Witness for `C3_exists_gate_amended`: with the only granule's CSV
present, no export event occurs. -/
theorem C3_exists_gate_amended_witness :
    PipeEv.exportCsv 1 ∉ (search_and_download_month ⟨[1], fun _ => true⟩).1 :=
  C3_exists_gate_amended.1 ⟨[1], fun _ => true⟩ 1 rfl
